import Mathlib

/-! Forward batch-normalization layer: the Input / Result contract; the
random number and dense linear algebra adapters; copy construction of the
batch algorithm classes; the memory service.

Shallow embedding of `Input::check`, `Input::allocate`, `Result::allocate`,
`Result::allocateLayerData` and `Result::check` from
`batch_normalization_layer_forward_types.h`, of `MklIntRng<int, cpu>` from
`service_rng_mkl.h`, of `OpenBlas<fpType, cpu>::xsyrk` and `xgemm` and the call macros
from `service_openblas.h`, of the copy constructors in `low_order_moments_batch.h`
and `abs_layer_forward.h`, and of `daal_memcpy_s` from `service_memory.cpp`.

* A `SharedPtr<Tensor>` is an `Option Tensor`; `none` is the null pointer.
  A tensor value carries the address of the object it denotes, so that two
  references are the same reference exactly when the addresses agree.
* `new` takes the next free address from an explicit counter.
* `this->_errors->add(e)` appends `e` to the error collection, which is passed
  in and returned explicitly.
* Every call of `checkTensor` is recorded by argument name in a ghost trace.
-/

namespace BatchNorm

/-! ## Tensors -/

/-- Element type `T` of a `HomogenTensor<T>`. -/
inductive FPType where
  | float
  | double
deriving DecidableEq, Repr

/-- Ways in which an access to a tensor or a pointer can fail. -/
inductive Failure where
  /-- The axis passed to `getDimensionSize` is not smaller than the rank. -/
  | OutOfRangeError
  /-- A member was called through a null `SharedPtr`. -/
  | NullDereference
deriving DecidableEq, Repr

/-- Tensor object: its address, its element type, its dimension sizes and the
constant its storage was filled with at construction, if any (numerator and
denominator of the constant). -/
structure Tensor where
  addr : Nat
  elemType : FPType
  dims : List Nat
  fill : Option (Int × Nat)
deriving DecidableEq, Repr

/-- Read-only shape descriptor, `Tensor::getDimensions`. -/
def Tensor.getDimensions (t : Tensor) : List Nat := t.dims

/-- Modelled from the spec: `Tensor::getDimensionSize` is declared in
`data_management/data/tensor.h`, which is not part of the sources. It returns
the size along an axis and fails with `OutOfRangeError` if the axis is not
smaller than the rank. -/
def Tensor.getDimensionSize (t : Tensor) (dimIdx : Nat) : Except Failure Nat :=
  match t.dims.get? dimIdx with
  | some n => Except.ok n
  | none => Except.error Failure.OutOfRangeError

/-- The constructor `HomogenTensor<T>(dims, Tensor::doAllocate)` run by `new`
at address `addr`; the storage is left unfilled. -/
def HomogenTensor.mk (addr : Nat) (T : FPType) (dims : List Nat) : Tensor :=
  { addr := addr, elemType := T, dims := dims, fill := none }

/-- The constructor `HomogenTensor<T>(dims, Tensor::doAllocate, initValue)` run by
`new` at address `addr`; the storage is filled with `initValue`. -/
def HomogenTensor.mkFilled (addr : Nat) (T : FPType) (dims : List Nat)
    (initValue : Int × Nat) : Tensor :=
  { addr := addr, elemType := T, dims := dims, fill := some initValue }

/-! ## Errors -/

/-- Error identifiers. `ErrorNullLayerData` and `ErrorIncorrectSizeOfLayerData`
are named in `Result::check`; the other three are the presence, rank and
per-axis size problems that `checkTensor` reports. -/
inductive ErrorID where
  | ErrorNullTensor
  | ErrorIncorrectNumberOfDimensionsInTensor
  | ErrorIncorrectSizeOfDimensionInTensor
  | ErrorNullLayerData
  | ErrorIncorrectSizeOfLayerData
deriving DecidableEq, Repr

/-- An error object: its identifier and the name of the argument it is about
(empty for the structural errors, which carry no argument name). -/
structure Error where
  id : ErrorID
  argumentName : String
deriving DecidableEq, Repr

/-- Modelled from the spec: `checkTensor` is declared in
`layers/layer_types.h`, which is not part of the sources. It verifies that the
slot is present (non-null) and, when expected dimensions are given, that the
tensor has that rank and those per-axis sizes; it returns the error found, or
a null error pointer when there is none. -/
def checkTensor (tensor : Option Tensor) (argumentName : String)
    (dims : Option (List Nat)) : Option Error :=
  match tensor with
  | none => some ⟨ErrorID.ErrorNullTensor, argumentName⟩
  | some t =>
    match dims with
    | none => none
    | some ds =>
      if t.dims.length ≠ ds.length then
        some ⟨ErrorID.ErrorIncorrectNumberOfDimensionsInTensor, argumentName⟩
      else if t.dims ≠ ds then
        some ⟨ErrorID.ErrorIncorrectSizeOfDimensionInTensor, argumentName⟩
      else none

/-! ## Runs of a `check` method -/

/-- State of one run of a `check` method: the error collection `_errors`, the
ghost trace of the argument names passed to `checkTensor` so far, and the
failed access that ended the run, if any. -/
structure CheckRun where
  errors : List Error
  checked : List String
  failure : Option Failure
deriving DecidableEq, Repr

/-- The call `this->_errors->add(error)`. -/
def CheckRun.add (run : CheckRun) (error : Error) : CheckRun :=
  { run with errors := run.errors ++ [error] }

/-- Ghost step: record a call of `checkTensor`. -/
def CheckRun.note (run : CheckRun) (argumentName : String) : CheckRun :=
  { run with checked := run.checked ++ [argumentName] }

/-- The run ends in a failed access. -/
def CheckRun.fail (run : CheckRun) (f : Failure) : CheckRun :=
  { run with failure := some f }

/-- The two statements
`error = checkTensor(tensor, name, dims); if (error) { this->_errors->add(error); return; }`.
`Except.error` carries the state at a `return`, `Except.ok` the state with which
the method goes on. -/
def checkSlot (tensor : Option Tensor) (argumentName : String)
    (dims : Option (List Nat)) (run : CheckRun) : Except CheckRun CheckRun :=
  match checkTensor tensor argumentName dims with
  | some error => Except.error ((run.note argumentName).add error)
  | none => Except.ok (run.note argumentName)

/-- Dereference of a `SharedPtr<Tensor>` inside a `check` method. -/
def derefTensor (tensor : Option Tensor) (run : CheckRun) : Except CheckRun Tensor :=
  match tensor with
  | some t => Except.ok t
  | none => Except.error (run.fail Failure.NullDereference)

/-- The statement `size_t dimensionSize = tensor->getDimensionSize(dimension);`
inside a `check` method. The method holds a plain `size_t` after it and has no
branch or handler for it: it goes on to the next statement whatever the axis.
For an axis of the tensor the value is the size along it. For an axis the
tensor does not have, the sources do not fix the value the method holds; it
enters as the parameter `beyond`. -/
def dimensionSizeOf (beyond : Nat) (tensor : Tensor) (dimension : Nat) : Nat :=
  match tensor.getDimensionSize dimension with
  | Except.ok n => n
  | Except.error _ => beyond

/-- State in which a `check` method ends, by `return` or by reaching its end. -/
def finish (r : Except CheckRun CheckRun) : CheckRun :=
  match r with
  | Except.ok run => run
  | Except.error run => run

/-! ## Input -/

/-- Parameter of the layer: the index of the dimension to normalize over. -/
structure Parameter where
  dimension : Nat
deriving DecidableEq, Repr

/-- Identifiers of the five input slots: `layers::forward::data`, `weights`,
`biases` and the two `InputLayerDataId` values. -/
inductive InputId where
  | data
  | weights
  | biases
  | populationMean
  | populationVariance
deriving DecidableEq, Repr

/-- Input object of the layer, `Input() : layers::forward::Input(5)`. -/
structure Input where
  data : Option Tensor
  weights : Option Tensor
  biases : Option Tensor
  populationMean : Option Tensor
  populationVariance : Option Tensor
deriving DecidableEq, Repr

/-- Slot read, `Input::get(id)`. -/
def Input.get (inp : Input) (id : InputId) : Option Tensor :=
  match id with
  | InputId.data => inp.data
  | InputId.weights => inp.weights
  | InputId.biases => inp.biases
  | InputId.populationMean => inp.populationMean
  | InputId.populationVariance => inp.populationVariance

/-- Slot write, `Input::set(id, ptr)`. -/
def Input.set (inp : Input) (id : InputId) (ptr : Option Tensor) : Input :=
  match id with
  | InputId.data => { inp with data := ptr }
  | InputId.weights => { inp with weights := ptr }
  | InputId.biases => { inp with biases := ptr }
  | InputId.populationMean => { inp with populationMean := ptr }
  | InputId.populationVariance => { inp with populationVariance := ptr }

/-- Body of `Input::check`, with `return` made explicit. `beyond` is the value of
the size lookup for an axis the data tensor does not have. -/
def Input.checkBody (inp : Input) (beyond : Nat) (parameter : Parameter) (run : CheckRun) :
    Except CheckRun CheckRun := do
  let dimension := parameter.dimension
  let dataTensor := inp.get InputId.data
  let run ← checkSlot dataTensor "data in Input" none run
  let data ← derefTensor dataTensor run
  let dimensionSize := dimensionSizeOf beyond data dimension
  let weightDims := [dimensionSize]
  let run ←
    if (inp.get InputId.weights).isSome then
      checkSlot (inp.get InputId.weights) "weights in Input" (some weightDims) run
    else Except.ok run
  let run ←
    if (inp.get InputId.biases).isSome then
      checkSlot (inp.get InputId.biases) "biases in Input" (some weightDims) run
    else Except.ok run
  let run ← checkSlot (inp.get InputId.populationMean) "populationMean in Input"
    (some weightDims) run
  let run ← checkSlot (inp.get InputId.populationVariance)
    "populationVariance in Input" (some weightDims) run
  return run

/-- The method `Input::check(parameter, method)`, run on the error collection `errors`. -/
def Input.check (inp : Input) (beyond : Nat) (parameter : Parameter)
    (errors : List Error) : CheckRun :=
  finish (inp.checkBody beyond parameter ⟨errors, [], none⟩)

/-- Dimensions of the weights tensor, `Input::getWeightsSizes`: the one-element
collection holding the size of the data tensor along `parameter.dimension`. -/
def Input.getWeightsSizes (inp : Input) (parameter : Parameter) :
    Except Failure (List Nat) :=
  match inp.get InputId.data with
  | none => Except.error Failure.NullDereference
  | some data =>
    match data.getDimensions.get? parameter.dimension with
    | some n => Except.ok [n]
    | none => Except.error Failure.OutOfRangeError

/-- Dimensions of the biases tensor, `Input::getBiasesSizes`. -/
def Input.getBiasesSizes (inp : Input) (parameter : Parameter) :
    Except Failure (List Nat) :=
  inp.getWeightsSizes parameter

/-- The method `Input::allocate<algorithmFPType>(parameter, method)`. `next` is
the next free address; the result is the input after the call together with
the next free address after it. Both tensors are `HomogenTensor<float>`
whatever `algorithmFPType` is; the constants are 0.5 and 0.0. -/
def Input.allocate (inp : Input) (parameter : Parameter) (algorithmFPType : FPType)
    (next : Nat) : Except Failure (Input × Nat) := do
  let _ := algorithmFPType
  let (inp, next) ←
    if (inp.get InputId.weights).isNone then do
      let sizes ← inp.getWeightsSizes parameter
      pure (inp.set InputId.weights
        (some (HomogenTensor.mkFilled next FPType.float sizes (1, 2))), next + 1)
    else pure (inp, next)
  let (inp, next) ←
    if (inp.get InputId.biases).isNone then do
      let sizes ← inp.getBiasesSizes parameter
      pure (inp.set InputId.biases
        (some (HomogenTensor.mkFilled next FPType.float sizes (0, 1))), next + 1)
    else pure (inp, next)
  return (inp, next)

/-! ## Result -/

/-- Modelled from the spec: the enumeration `LayerDataId` is declared in
`batch_normalization_layer_types.h`, which is not part of the sources. It
names the six backward-auxiliary slots of a normalization-style layer. -/
inductive LayerDataId where
  | auxData
  | auxWeights
  | auxMean
  | auxStandardDeviation
  | auxPopulationMean
  | auxPopulationVariance
deriving DecidableEq, Repr

/-- Key of a slot in the key-value collection: the enumerators count from zero
in the order of their declaration. -/
def LayerDataId.key (id : LayerDataId) : Nat :=
  match id with
  | LayerDataId.auxData => 0
  | LayerDataId.auxWeights => 1
  | LayerDataId.auxMean => 2
  | LayerDataId.auxStandardDeviation => 3
  | LayerDataId.auxPopulationMean => 4
  | LayerDataId.auxPopulationVariance => 5

/-- A `LayerData` object, a key-value collection from `size_t` keys to shared
pointers: its address and its entries in the order of insertion. -/
structure LayerData where
  addr : Nat
  entries : List (Nat × Option Tensor)
deriving DecidableEq, Repr

/-- Number of entries, `LayerData::size`. -/
def LayerData.size (ld : LayerData) : Nat := ld.entries.length

/-- Read of `(*layerData)[key]`: the value stored under the key, the null pointer
when the key has no entry. -/
def LayerData.find (ld : LayerData) (key : Nat) : Option Tensor :=
  match ld.entries.find? (fun e => e.1 == key) with
  | some e => e.2
  | none => none

/-- Assignment to the entry list of `(*layerData)[key] = ptr`: the value of an
existing key is replaced, a new key is appended. -/
def assignEntry (key : Nat) (ptr : Option Tensor) :
    List (Nat × Option Tensor) → List (Nat × Option Tensor)
  | [] => [(key, ptr)]
  | e :: es => if e.1 == key then (key, ptr) :: es else e :: assignEntry key ptr es

/-- Assignment `(*layerData)[key] = ptr`. -/
def LayerData.assign (ld : LayerData) (key : Nat) (ptr : Option Tensor) : LayerData :=
  { ld with entries := assignEntry key ptr ld.entries }

/-- Result object of the layer: the slots `layers::forward::value` and
`layers::forward::resultForBackward`. -/
structure Result where
  value : Option Tensor
  resultForBackward : Option LayerData
deriving DecidableEq, Repr

/-- Read of an auxiliary slot, `Result::get(LayerDataId)`. -/
def Result.get (res : Result) (id : LayerDataId) : Except Failure (Option Tensor) :=
  match res.resultForBackward with
  | none => Except.error Failure.NullDereference
  | some layerData => Except.ok (layerData.find id.key)

/-- Write of an auxiliary slot, `Result::set(LayerDataId, ptr)`. -/
def Result.set (res : Result) (id : LayerDataId) (ptr : Option Tensor) :
    Except Failure Result :=
  match res.resultForBackward with
  | none => Except.error Failure.NullDereference
  | some layerData =>
    Except.ok { res with resultForBackward := some (layerData.assign id.key ptr) }

/-- The method `Result::getValueSize(inputSize, par, method)`. -/
def Result.getValueSize (inputSize : List Nat) (par : Parameter) (method : Int) :
    List Nat :=
  let _ := par
  let _ := method
  inputSize

/-- The method `Result::allocateLayerData<algorithmFPType>(input, parameter, method)`;
`next` is the next free address. -/
def Result.allocateLayerData (res : Result) (input : Input) (parameter : Parameter)
    (algorithmFPType : FPType) (next : Nat) : Except Failure (Result × Nat) := do
  let dimension := parameter.dimension
  let data ←
    match input.get InputId.data with
    | some t => Except.ok t
    | none => Except.error Failure.NullDereference
  let dimensionSize ← data.getDimensionSize dimension
  let auxDims := [dimensionSize]
  let res ← res.set LayerDataId.auxData (input.get InputId.data)
  let res ← res.set LayerDataId.auxWeights (input.get InputId.weights)
  let res ← res.set LayerDataId.auxMean
    (some (HomogenTensor.mk next algorithmFPType auxDims))
  let res ← res.set LayerDataId.auxStandardDeviation
    (some (HomogenTensor.mk (next + 1) algorithmFPType auxDims))
  let res ← res.set LayerDataId.auxPopulationMean
    (some (HomogenTensor.mk (next + 2) algorithmFPType auxDims))
  let res ← res.set LayerDataId.auxPopulationVariance
    (some (HomogenTensor.mk (next + 3) algorithmFPType auxDims))
  return (res, next + 4)

/-- The method `Result::allocate<algorithmFPType>(input, parameter, method)`;
`next` is the next free address. -/
def Result.allocate (res : Result) (input : Input) (parameter : Parameter)
    (algorithmFPType : FPType) (next : Nat) : Except Failure (Result × Nat) := do
  let data ←
    match input.get InputId.data with
    | some t => Except.ok t
    | none => Except.error Failure.NullDereference
  let res := { res with
    value := some (HomogenTensor.mk next algorithmFPType data.getDimensions) }
  let res := { res with resultForBackward := some { addr := next + 1, entries := [] } }
  res.allocateLayerData input parameter algorithmFPType (next + 2)

/-- Read of an auxiliary slot inside `Result::check`. -/
def auxSlot (res : Result) (id : LayerDataId) (run : CheckRun) :
    Except CheckRun (Option Tensor) :=
  match res.get id with
  | Except.ok t => Except.ok t
  | Except.error f => Except.error (run.fail f)

/-- Body of `Result::check`, with `return` made explicit. The inner test of
`if (layerData->size() != 6) if (!layerData) { ... }` is on a pointer the
method has just found to be non-null. `beyond` is the value of the size lookup
for an axis the value tensor does not have. -/
def Result.checkBody (res : Result) (beyond : Nat) (input : Input) (parameter : Parameter)
    (run : CheckRun) : Except CheckRun CheckRun := do
  let dimension := parameter.dimension
  let dataTensor ← derefTensor (input.get InputId.data) run
  let dataDims := dataTensor.getDimensions
  let valueTensor := res.value
  let run ← checkSlot valueTensor "value" (some dataDims) run
  let value ← derefTensor valueTensor run
  let dimensionSize := dimensionSizeOf beyond value dimension
  let auxDims := [dimensionSize]
  let layerData := res.resultForBackward
  let run ←
    if layerData.isNone then Except.error (run.add ⟨ErrorID.ErrorNullLayerData, ""⟩)
    else Except.ok run
  let size ←
    match layerData with
    | some ld => Except.ok ld.size
    | none => Except.error (run.fail Failure.NullDereference)
  let run ←
    if size ≠ 6 then
      if layerData.isNone then
        Except.error (run.add ⟨ErrorID.ErrorIncorrectSizeOfLayerData, ""⟩)
      else Except.ok run
    else Except.ok run
  let t ← auxSlot res LayerDataId.auxData run
  let run ← checkSlot t "auxData in Result" (some dataDims) run
  let t ← auxSlot res LayerDataId.auxWeights run
  let run ← checkSlot t "auxWeights in Result" (some auxDims) run
  let t ← auxSlot res LayerDataId.auxMean run
  let run ← checkSlot t "auxMean in Result" (some auxDims) run
  let t ← auxSlot res LayerDataId.auxStandardDeviation run
  let run ← checkSlot t "auxStandardDeviation in Result" (some auxDims) run
  let t ← auxSlot res LayerDataId.auxPopulationMean run
  let run ← checkSlot t "auxPopulationMean in Result" (some auxDims) run
  let t ← auxSlot res LayerDataId.auxPopulationVariance run
  let run ← checkSlot t "auxPopulationVariance in Result" (some auxDims) run
  return run

/-- The method `Result::check(input, parameter, method)`, run on the error
collection `errors`. -/
def Result.check (res : Result) (beyond : Nat) (input : Input) (parameter : Parameter)
    (errors : List Error) : CheckRun :=
  finish (res.checkBody beyond input parameter ⟨errors, [], none⟩)

/-! ## What the slot checks of `Input::check` can report -/

/-- Errors of all the slot checks of the input that fail, in the order in which
`Input::check` visits the slots: data, weights when present, biases when
present, populationMean, populationVariance. `weightDims` is the shape
expected of the four auxiliary tensors. -/
def Input.slotErrors (inp : Input) (weightDims : List Nat) : List Error :=
  (checkTensor inp.data "data in Input" none).toList ++
  (if inp.weights.isSome then
    (checkTensor inp.weights "weights in Input" (some weightDims)).toList else []) ++
  (if inp.biases.isSome then
    (checkTensor inp.biases "biases in Input" (some weightDims)).toList else []) ++
  (checkTensor inp.populationMean "populationMean in Input" (some weightDims)).toList ++
  (checkTensor inp.populationVariance "populationVariance in Input"
    (some weightDims)).toList

/-- Every error of the run that carries the identifier
ErrorIncorrectSizeOfLayerData was already in the collection `errors`. -/
def NoSizeError (errors : List Error) (run : CheckRun) : Prop :=
  ∀ e ∈ run.errors, e.id = ErrorID.ErrorIncorrectSizeOfLayerData → e ∈ errors

/-! ## Sample objects -/

/-- A data tensor of shape [4,3] at address 1. -/
def sampleData : Tensor := ⟨1, FPType.float, [4, 3], none⟩

/-- A tensor of the given shape at the given address. -/
def sampleTensor (addr : Nat) (dims : List Nat) : Tensor := ⟨addr, FPType.float, dims, none⟩

/-- Input with data of shape [4,3] and the four auxiliary tensors of shape [3]. -/
def sampleInput : Input :=
  ⟨some sampleData, some (sampleTensor 2 [3]), some (sampleTensor 3 [3]),
    some (sampleTensor 4 [3]), some (sampleTensor 5 [3])⟩

/-- Input with data of shape [4,3], no weights, no biases and the two population
statistics of shape [3]. -/
def sampleInputNoWeights : Input :=
  ⟨some sampleData, none, none, some (sampleTensor 4 [3]), some (sampleTensor 5 [3])⟩

/-- Input without data tensor. -/
def sampleInputNoData : Input :=
  ⟨none, none, none, some (sampleTensor 4 [3]), some (sampleTensor 5 [3])⟩

/-- Input with data of shape [4,3] whose two population statistics both have a
wrong shape. -/
def sampleInputTwoWrong : Input :=
  ⟨some sampleData, none, none, some (sampleTensor 4 [4]), some (sampleTensor 5 [2])⟩

/-- Input with data of shape [4,3], no weights, no biases and the two population
statistics of the one-element shape [s]. -/
def sampleInputStats (s : Nat) : Input :=
  ⟨some sampleData, none, none, some (sampleTensor 4 [s]), some (sampleTensor 5 [s])⟩

/-- Input with data of shape [4,3] and no populationMean. -/
def sampleInputNoMean : Input :=
  ⟨some sampleData, none, none, none, some (sampleTensor 5 [3])⟩

/-- Result with a value tensor of shape [4,3] and a null resultForBackward. -/
def sampleResultNoLayerData : Result :=
  ⟨some (sampleTensor 10 [4, 3]), none⟩

/-- Result with a value tensor of shape [4,3] whose collection holds seven
entries: the six auxiliary slots, all of the right shape, and one more key. -/
def sampleResultSeven : Result :=
  ⟨some (sampleTensor 10 [4, 3]),
    some ⟨11, [(0, some sampleData), (1, some (sampleTensor 2 [3])),
      (2, some (sampleTensor 12 [3])), (3, some (sampleTensor 13 [3])),
      (4, some (sampleTensor 14 [3])), (5, some (sampleTensor 15 [3])),
      (6, some (sampleTensor 16 [3]))]⟩⟩

/-- Result with a value tensor of shape [4,3] whose collection is empty. -/
def sampleResultEmpty : Result :=
  ⟨some (sampleTensor 10 [4, 3]), some ⟨11, []⟩⟩

/-- The empty result object, `Result()`. -/
def emptyResult : Result := ⟨none, none⟩

end BatchNorm

/-! ## Random number generator adapter, `service_rng_mkl.h` -/

namespace MklRng

/-- The library generator `std::mt19937` and the library distribution
`std::uniform_int_distribution<int>` as the adapter sees them: a state type,
the state that the constructor `mt19937(seed)` builds, and the draw
`uniform_int_distribution<int>{a, b}(rand)`, which returns a value and the
advanced state. Both are deterministic library components outside the
repository and enter as a parameter. -/
structure Engine where
  State : Type
  seed : Int → State
  uniformInt : Int → Int → State → Int × State

/-- An instance of `MklIntRng<int, cpu>`: its private members. -/
structure MklIntRng (E : Engine) where
  BRNG : Int
  SEED : Nat
  METHOD : Int
  stream : Nat
  errcode : Int
  rand : E.State

/-- The constructor `MklIntRng(int seed)`. -/
def MklIntRng.new (E : Engine) (seed : Int) : MklIntRng E :=
  { BRNG := 2 ^ 20 * 8
    SEED := (seed % 2 ^ 32).toNat
    METHOD := 0
    stream := 0
    errcode := 0
    rand := E.seed seed }

/-- The loop of `uniform`: `n` draws from the generator, each with a new
distribution object; the values are the ones stored in `r[0]`, ..., `r[n-1]`. -/
def uniformLoop (E : Engine) (a b : Int) : Nat → E.State → List Int × E.State
  | 0, s => ([], s)
  | n + 1, s =>
    let d := E.uniformInt a b s
    let rest := uniformLoop E a b n d.2
    (d.1 :: rest.1, rest.2)

/-- The method `uniform(n, a, b, r)`: the values written to `r[0]`, ..., `r[n-1]`
and the instance after the call. The draws go through the member `rand`
itself, so the state of the instance advances. -/
def MklIntRng.uniform {E : Engine} (inst : MklIntRng E) (n : Nat) (a b : Int) :
    List Int × MklIntRng E :=
  let out := uniformLoop E a b n inst.rand
  (out.1, { inst with rand := out.2 })

/-- One call `uniform(n, a, b, r)`: count and bounds. -/
structure UniformCall where
  n : Nat
  a : Int
  b : Int
deriving DecidableEq, Repr

/-- A sequence of `uniform` calls on one instance: the output of every call, in
order, and the instance after the last call. -/
def runCalls {E : Engine} (inst : MklIntRng E) :
    List UniformCall → List (List Int) × MklIntRng E
  | [] => ([], inst)
  | c :: cs =>
    let r := inst.uniform c.n c.a c.b
    let rest := runCalls r.2 cs
    (r.1 :: rest.1, rest.2)

/-- A program with two instances in which the `uniform` calls on the first
(`true`) and on the second (`false`) instance are interleaved in the order of
the list: the outputs written through the first instance, the outputs written
through the second, and the two instances at the end. -/
def runInterleaved {E : Engine} (i1 i2 : MklIntRng E) :
    List (Bool × UniformCall) → List (List Int) × List (List Int) × MklIntRng E × MklIntRng E
  | [] => ([], [], i1, i2)
  | (true, c) :: cs =>
    let r := i1.uniform c.n c.a c.b
    let rest := runInterleaved r.2 i2 cs
    (r.1 :: rest.1, rest.2.1, rest.2.2)
  | (false, c) :: cs =>
    let r := i2.uniform c.n c.a c.b
    let rest := runInterleaved i1 r.2 cs
    (rest.1, r.1 :: rest.2.1, rest.2.2)

/-- The calls of an interleaved program that go to the first (`true`) or to the
second (`false`) instance. -/
def callsOf (which : Bool) (sched : List (Bool × UniformCall)) : List UniformCall :=
  (sched.filter (fun e => e.1 == which)).map Prod.snd

/-- A small linear congruential engine, for concrete runs. -/
def sampleEngine : Engine :=
  { State := Nat
    seed := fun s => s.toNat
    uniformInt := fun a b s =>
      (a + ((s : Int) % (b - a + 1)), (s * 1103515245 + 12345) % 2147483648) }

end MklRng

/-! ## Dense linear algebra adapter, `service_openblas.h` -/

namespace OpenBlas

/-- Values of the `cpu` template parameter; the adapter never reads it. -/
inductive CpuType where
  | sse2
  | ssse3
  | sse42
  | avx
  | avx2
  | avx512_mic
  | avx512
deriving DecidableEq, Repr

/-- Storage order argument of the backend, `cblas.h`. -/
inductive CBLAS_LAYOUT where
  | CblasRowMajor
  | CblasColMajor
deriving DecidableEq, Repr

/-- Transposition argument of the backend, `cblas.h`. -/
inductive CBLAS_TRANSPOSE where
  | CblasNoTrans
  | CblasTrans
deriving DecidableEq, Repr

/-- The macro `__DAAL_CONCAT41(a,b,c,d)`, which pastes `a##d`. -/
def DAAL_CONCAT41 (a b c d : String) : String :=
  let _ := b
  let _ := c
  a ++ d

/-- The macro `__DAAL_CONCAT4(a,b,c,d)`. -/
def DAAL_CONCAT4 (a b c d : String) : String := DAAL_CONCAT41 a b c d

/-- The macro `__DAAL_MKLFN(f_cpu,f_pref,f_name)`. -/
def DAAL_MKLFN ( f_cpu f_pref f_name : String) : String :=
  DAAL_CONCAT4 "cblas_" f_pref f_cpu f_name

/-- The macro `__DAAL_MKL_SSE2` outside `__APPLE__`. -/
def DAAL_MKL_SSE2 : String := "sse2_"

/-- Name of the backend routine that `__DAAL_MKLFN_CALL(f_pref,f_name,f_args)`
calls, through `__DAAL_MKLFN_CALL1`. -/
def DAAL_MKLFN_CALL ( f_pref f_name : String) : String :=
  DAAL_MKLFN DAAL_MKL_SSE2 f_pref f_name

/-- A call of the backend routine `cblas_?gemm`: the routine name and the
thirteen arguments after the layout. Buffers are maps from the element index
to the element; dimensions and leading dimensions are non-negative. -/
structure GemmCall (R : Type) where
  routine : String
  layout : CBLAS_LAYOUT
  transA : CBLAS_TRANSPOSE
  transB : CBLAS_TRANSPOSE
  M : Nat
  N : Nat
  K : Nat
  alpha : R
  A : Nat → R
  lda : Nat
  B : Nat → R
  ldb : Nat
  beta : R
  C : Nat → R
  ldc : Nat

/-- The flag expression `(*t == 'N' || *t == 'n') ? CblasNoTrans : CblasTrans`. -/
def transFlag (t : Char) : CBLAS_TRANSPOSE :=
  if t = 'N' ∨ t = 'n' then CBLAS_TRANSPOSE.CblasNoTrans else CBLAS_TRANSPOSE.CblasTrans

/-- The backend call made by `OpenBlas<double, cpu>::xgemm`. The line written to
`cout` is left out. -/
def xgemmCallDouble {R : Type} (cpu : CpuType) (transa transb : Char) (p ny n : Nat)
    (alpha : R) (a : Nat → R) (lda : Nat) (y : Nat → R) (ldy : Nat) (beta : R)
    (aty : Nat → R) (ldaty : Nat) : GemmCall R :=
  let _ := cpu
  { routine := DAAL_MKLFN_CALL "blas_" "dgemm"
    layout := CBLAS_LAYOUT.CblasRowMajor
    transA := transFlag transb
    transB := transFlag transa
    M := ny
    N := p
    K := n
    alpha := alpha
    A := y
    lda := ldy
    B := a
    ldb := lda
    beta := beta
    C := aty
    ldc := ldaty }

/-- The backend call made by `OpenBlas<float, cpu>::xgemm`. -/
def xgemmCallFloat {R : Type} (cpu : CpuType) (transa transb : Char) (p ny n : Nat)
    (alpha : R) (a : Nat → R) (lda : Nat) (y : Nat → R) (ldy : Nat) (beta : R)
    (aty : Nat → R) (ldaty : Nat) : GemmCall R :=
  let _ := cpu
  { routine := DAAL_MKLFN_CALL "blas_" "sgemm"
    layout := CBLAS_LAYOUT.CblasRowMajor
    transA := transFlag transa
    transB := transFlag transb
    M := p
    N := ny
    K := n
    alpha := alpha
    A := a
    lda := lda
    B := y
    ldb := ldy
    beta := beta
    C := aty
    ldc := ldaty }

/-- The two calls agree in everything but the routine name: layout, transpose
flags, dimensions, operands and leading dimensions. -/
def GemmCall.sameConvention {R : Type} (c1 c2 : GemmCall R) : Prop :=
  c1.layout = c2.layout ∧ c1.transA = c2.transA ∧ c1.transB = c2.transB
    ∧ c1.M = c2.M ∧ c1.N = c2.N ∧ c1.K = c2.K ∧ c1.alpha = c2.alpha
    ∧ c1.A = c2.A ∧ c1.lda = c2.lda ∧ c1.B = c2.B ∧ c1.ldb = c2.ldb
    ∧ c1.beta = c2.beta ∧ c1.C = c2.C ∧ c1.ldc = c2.ldc

/-- Sum of `f k` over `k < K`. -/
def sumTo {R : Type} [Zero R] [Add R] (f : Nat → R) : Nat → R
  | 0 => 0
  | K + 1 => sumTo f K + f K

/-- Element in row `i` and column `k` of a matrix stored with leading dimension
`ld` in the given layout. -/
def elemAt {R : Type} (layout : CBLAS_LAYOUT) (X : Nat → R) (ld i k : Nat) : R :=
  match layout with
  | CBLAS_LAYOUT.CblasRowMajor => X (i * ld + k)
  | CBLAS_LAYOUT.CblasColMajor => X (i + k * ld)

/-- Element in row `i` and column `k` of `op(X)`. -/
def opAt {R : Type} (layout : CBLAS_LAYOUT) (t : CBLAS_TRANSPOSE) (X : Nat → R)
    (ld i k : Nat) : R :=
  match t with
  | CBLAS_TRANSPOSE.CblasNoTrans => elemAt layout X ld i k
  | CBLAS_TRANSPOSE.CblasTrans => elemAt layout X ld k i

/-- Reference semantics of the backend routine `cblas_?gemm` in exact
arithmetic: the buffer `C` after the call. The `M` by `N` matrix stored in `C`
becomes `alpha * op(A) * op(B) + beta * C`; every other element of the buffer
is kept. The routine belongs to the external library. -/
def cblas_gemm {R : Type} [Zero R] [Add R] [Mul R] (c : GemmCall R) : Nat → R :=
  fun idx =>
    let major := idx / c.ldc
    let minor := idx % c.ldc
    let i := match c.layout with
      | CBLAS_LAYOUT.CblasRowMajor => major
      | CBLAS_LAYOUT.CblasColMajor => minor
    let j := match c.layout with
      | CBLAS_LAYOUT.CblasRowMajor => minor
      | CBLAS_LAYOUT.CblasColMajor => major
    if i < c.M ∧ j < c.N then
      c.alpha * sumTo (fun k => opAt c.layout c.transA c.A c.lda i k
          * opAt c.layout c.transB c.B c.ldb k j) c.K
        + c.beta * c.C idx
    else c.C idx

/-- The buffer `aty` after `OpenBlas<double, cpu>::xgemm`. -/
def xgemmDouble {R : Type} [Zero R] [Add R] [Mul R] (cpu : CpuType) (transa transb : Char)
    (p ny n : Nat) (alpha : R) (a : Nat → R) (lda : Nat) (y : Nat → R) (ldy : Nat)
    (beta : R) (aty : Nat → R) (ldaty : Nat) : Nat → R :=
  cblas_gemm (xgemmCallDouble cpu transa transb p ny n alpha a lda y ldy beta aty ldaty)

/-- The buffer `aty` after `OpenBlas<float, cpu>::xgemm`. -/
def xgemmFloat {R : Type} [Zero R] [Add R] [Mul R] (cpu : CpuType) (transa transb : Char)
    (p ny n : Nat) (alpha : R) (a : Nat → R) (lda : Nat) (y : Nat → R) (ldy : Nat)
    (beta : R) (aty : Nat → R) (ldaty : Nat) : Nat → R :=
  cblas_gemm (xgemmCallFloat cpu transa transb p ny n alpha a lda y ldy beta aty ldaty)

/-- Element in row `i` and column `k` of `op(X)` for a matrix `X` that is stored
column-major with leading dimension `ld`, where `op` is the identity for the
flags 'N' and 'n' and the transposition otherwise. -/
def colMajorOp {R : Type} (t : Char) (X : Nat → R) (ld i k : Nat) : R :=
  if t = 'N' ∨ t = 'n' then X (i + k * ld) else X (k + i * ld)

/-- What the signature of `xgemm` promises in the column-major convention:
element `(i, j)` of `alpha * op(a) * op(y) + beta * aty`, all three matrices
read column-major and `n` the inner dimension. -/
def colMajorGemm {R : Type} [Zero R] [Add R] [Mul R] (transa transb : Char) (n : Nat)
    (alpha : R) (a : Nat → R) (lda : Nat) (y : Nat → R) (ldy : Nat) (beta : R)
    (aty : Nat → R) (ldaty : Nat) (i j : Nat) : R :=
  alpha * sumTo (fun k => colMajorOp transa a lda i k * colMajorOp transb y ldy k j) n
    + beta * aty (i + j * ldaty)

/-- The square buffer of order `n` that holds the transposed matrix: the element
at `i * n + k` is the element of `X` at `k * n + i`. -/
def transposeSq {R : Type} (n : Nat) (X : Nat → R) : Nat → R :=
  fun idx => X (idx % n * n + idx / n)

/-- A buffer given by its first elements; the elements behind them are zero. -/
def bufferOf (xs : List Int) : Nat → Int := fun i => xs.getD i 0

/-- Triangle argument of the backend, `cblas.h`. -/
inductive CBLAS_UPLO where
  | CblasUpper
  | CblasLower
deriving DecidableEq, Repr

/-- A call of the backend routine `cblas_?syrk`: the routine name and the eleven
arguments. -/
structure SyrkCall (R : Type) where
  routine : String
  layout : CBLAS_LAYOUT
  uplo : CBLAS_UPLO
  trans : CBLAS_TRANSPOSE
  N : Nat
  K : Nat
  alpha : R
  A : Nat → R
  lda : Nat
  beta : R
  C : Nat → R
  ldc : Nat

/-- The flag expression `*uplo == 'U' ? CblasUpper : CblasLower`. -/
def uploFlag (u : Char) : CBLAS_UPLO :=
  if u = 'U' then CBLAS_UPLO.CblasUpper else CBLAS_UPLO.CblasLower

/-- The backend call made by `OpenBlas<double, cpu>::xsyrk`. -/
def xsyrkCallDouble {R : Type} (cpu : CpuType) (uplo trans : Char) (p n : Nat)
    (alpha : R) (a : Nat → R) (lda : Nat) (beta : R) (ata : Nat → R) (ldata : Nat) :
    SyrkCall R :=
  let _ := cpu
  { routine := DAAL_MKLFN_CALL "blas_" "dsyrk"
    layout := CBLAS_LAYOUT.CblasRowMajor
    uplo := uploFlag uplo
    trans := transFlag trans
    N := p
    K := n
    alpha := alpha
    A := a
    lda := lda
    beta := beta
    C := ata
    ldc := ldata }

/-- The backend call made by `OpenBlas<float, cpu>::xsyrk`. -/
def xsyrkCallFloat {R : Type} (cpu : CpuType) (uplo trans : Char) (p n : Nat)
    (alpha : R) (a : Nat → R) (lda : Nat) (beta : R) (ata : Nat → R) (ldata : Nat) :
    SyrkCall R :=
  let _ := cpu
  { routine := DAAL_MKLFN_CALL "blas_" "ssyrk"
    layout := CBLAS_LAYOUT.CblasRowMajor
    uplo := uploFlag uplo
    trans := transFlag trans
    N := p
    K := n
    alpha := alpha
    A := a
    lda := lda
    beta := beta
    C := ata
    ldc := ldata }

end OpenBlas

/-! ## Batch algorithm classes: copy construction -/

namespace low_order_moments

/-- Modelled from the spec: the class `Input` of the algorithm is declared in
`low_order_moments_types.h`, which is not part of the sources. It maps the slot
identifier `data` to a shared reference, given here by the address of the
container it refers to; a new `Input` object has a null slot. -/
structure Input where
  data : Option Nat
deriving DecidableEq, Repr

/-- The default constructor `Input()`. -/
def Input.new : Input := ⟨none⟩

/-- An object of class `Batch<algorithmFPType, method>`: the member `input`, the
shared pointer `_result` (address of the `Result` object) and the container
pointer `_ac`. -/
structure Batch where
  input : Input
  _result : Option Nat
  _ac : Option Nat
deriving DecidableEq, Repr

/-- The method `BatchIface::initialize`: `_result` becomes a `new Result()` at
the next free address. -/
def BatchIface.initialize (b : Batch) (next : Nat) : Batch × Nat :=
  ({ b with _result := some next }, next + 1)

/-- The method `Batch::initialize`: `_ac` becomes a new container at the next
free address. -/
def Batch.initialize (b : Batch) (next : Nat) : Batch × Nat :=
  ({ b with _ac := some next }, next + 1)

/-- The copy constructor `BatchIface(const BatchIface &other)` run on a new
object, whose members are default-constructed. -/
def BatchIface.copy (other : Batch) (next : Nat) : Batch × Nat :=
  let b : Batch := ⟨Input.new, none, none⟩
  let s := BatchIface.initialize b next
  ({ s.1 with input := { s.1.input with data := other.input.data } }, s.2)

/-- The copy constructor `Batch(const Batch &other) : BatchIface(other)`. -/
def Batch.copy (other : Batch) (next : Nat) : Batch × Nat :=
  let s := BatchIface.copy other next
  Batch.initialize s.1 s.2

/-- A batch object whose data slot refers to the container at address 7 and
whose result and container are at addresses 20 and 21. -/
def sampleBatch : Batch := ⟨⟨some 7⟩, some 20, some 21⟩

end low_order_moments

namespace abs_forward

/-- Input object of the layer, `layers::forward::Input`: the slots data, weights
and biases, each a shared reference given by the address it refers to. -/
structure Input where
  data : Option Nat
  weights : Option Nat
  biases : Option Nat
deriving DecidableEq, Repr

/-- The default constructor `Input()`. -/
def Input.new : Input := ⟨none, none, none⟩

/-- An object of class `abs::forward::Batch<algorithmFPType, method>`: the member
`input`, the shared pointer `_result` and the container pointer `_ac`. -/
structure Batch where
  input : Input
  _result : Option Nat
  _ac : Option Nat
deriving DecidableEq, Repr

/-- The method `Batch::initialize`: a new container, then a `new Result()`. -/
def Batch.initialize (b : Batch) (next : Nat) : Batch × Nat :=
  ({ b with _ac := some next, _result := some (next + 1) }, next + 2)

/-- The copy constructor `Batch(const Batch &other)` run on a new object, whose
members are default-constructed. -/
def Batch.copy (other : Batch) (next : Nat) : Batch × Nat :=
  let b : Batch := ⟨Input.new, none, none⟩
  let s := Batch.initialize b next
  let input := { s.1.input with data := other.input.data }
  let input := { input with weights := other.input.weights }
  let input := { input with biases := other.input.biases }
  ({ s.1 with input := input }, s.2)

/-- A layer object whose three slots refer to the addresses 7, 8 and 9 and whose
container and result are at addresses 20 and 21. -/
def sampleBatch : Batch := ⟨⟨some 7, some 8, some 9⟩, some 21, some 20⟩

end abs_forward

/-! ## Memory service, `service_memory.cpp` -/

namespace services

/-- Reduction of a value to the range of `size_t`, 64 bits wide. -/
def wrap (x : Nat) : Nat := x % 18446744073709551616

/-- The library call `memcpy(&dst[off], &src[off], len)` on buffers that do not
overlap: the buffer `dst` after the call. -/
def memcpyAt {α : Type} (dst src : Nat → α) (off len : Nat) : Nat → α :=
  fun i => if off ≤ i ∧ i < off + len then src i else dst i

/-- The `for` loop of `daal_memcpy_s` after `k` iterations. -/
def copyBlocks {α : Type} (src : Nat → α) (BLOCKSIZE : Nat) : Nat → (Nat → α) → (Nat → α)
  | 0, dst => dst
  | k + 1, dst => memcpyAt (copyBlocks src BLOCKSIZE k dst) src (wrap (k * BLOCKSIZE)) BLOCKSIZE

/-- The function `daal_memcpy_s(dest, destSize, src, srcSize)`: the buffer `dest`
after the call. -/
def daal_memcpy_s {α : Type} (dest : Nat → α) (destSize : Nat) (src : Nat → α)
    (srcSize : Nat) : Nat → α :=
  let copySize := if destSize < srcSize then destSize else srcSize
  let BLOCKSIZE := 200000000
  let nBlocks := copySize / BLOCKSIZE
  let sizeOfLastBlock :=
    if wrap (nBlocks * BLOCKSIZE) ≠ copySize then
      wrap (copySize + 18446744073709551616 - wrap (nBlocks * BLOCKSIZE))
    else 0
  let dst := copyBlocks src BLOCKSIZE nBlocks dest
  if sizeOfLastBlock ≠ 0 then
    memcpyAt dst src (wrap (nBlocks * BLOCKSIZE)) sizeOfLastBlock
  else dst

/-- The `memcpy` calls of `daal_memcpy_s` in the order in which they are made,
each given by its offset and its length. -/
def memcpyCalls (destSize srcSize : Nat) : List (Nat × Nat) :=
  let copySize := if destSize < srcSize then destSize else srcSize
  let BLOCKSIZE := 200000000
  let nBlocks := copySize / BLOCKSIZE
  let sizeOfLastBlock :=
    if wrap (nBlocks * BLOCKSIZE) ≠ copySize then
      wrap (copySize + 18446744073709551616 - wrap (nBlocks * BLOCKSIZE))
    else 0
  (List.range nBlocks).map (fun i => (wrap (i * BLOCKSIZE), BLOCKSIZE))
    ++ (if sizeOfLastBlock ≠ 0 then [(wrap (nBlocks * BLOCKSIZE), sizeOfLastBlock)] else [])

/-- Number of `memcpy` calls of the list whose byte range holds the index `i`. -/
def coverCount (calls : List (Nat × Nat)) (i : Nat) : Nat :=
  (calls.filter (fun c => decide (c.1 ≤ i ∧ i < c.1 + c.2))).length

/-- A single copy of `m` bytes from `src` to `dest`. -/
def singleCopy {α : Type} (dest src : Nat → α) (m : Nat) : Nat → α :=
  fun i => if i < m then src i else dest i

end services

namespace BatchNorm

/-! ## Lemmas on the helpers -/

theorem getDimensionSize_of_lt (t : Tensor) (d : Nat) (h : d < t.dims.length) :
    t.getDimensionSize d = Except.ok t.dims[d] := by
  unfold Tensor.getDimensionSize
  rw [List.get?_eq_get h]
  rfl

theorem getDimensionSize_of_ge (t : Tensor) (d : Nat) (h : t.dims.length ≤ d) :
    t.getDimensionSize d = Except.error Failure.OutOfRangeError := by
  unfold Tensor.getDimensionSize
  rw [List.get?_eq_none.mpr h]

theorem checkTensor_null (argumentName : String) (dims : Option (List Nat)) :
    checkTensor none argumentName dims = some ⟨ErrorID.ErrorNullTensor, argumentName⟩ := rfl

theorem checkTensor_present (t : Tensor) (argumentName : String) :
    checkTensor (some t) argumentName none = none := rfl

theorem checkTensor_eq_none_iff (t : Tensor) (argumentName : String) (ds : List Nat) :
    checkTensor (some t) argumentName (some ds) = none ↔ t.dims = ds := by
  unfold checkTensor
  constructor
  · intro h
    by_contra hne
    by_cases hl : t.dims.length = ds.length <;> simp [hl, hne] at h
  · intro h
    simp [h]

theorem dimensionSizeOf_of_lt (beyond : Nat) (t : Tensor) (d : Nat)
    (h : d < t.dims.length) : dimensionSizeOf beyond t d = t.dims[d] := by
  unfold dimensionSizeOf
  rw [getDimensionSize_of_lt t d h]

theorem dimensionSizeOf_of_ge (beyond : Nat) (t : Tensor) (d : Nat)
    (h : t.dims.length ≤ d) : dimensionSizeOf beyond t d = beyond := by
  unfold dimensionSizeOf
  rw [getDimensionSize_of_ge t d h]

/-- Run of `Input::check` on an input whose data tensor is present, for any
dimension: the slots are checked against the one-element shape that holds the
value of the size lookup, and the error collection gains the error of the
first failing slot check and nothing else. -/
theorem inputCheck_errors_at (inp : Input) (beyond : Nat) (parameter : Parameter)
    (errors : List Error) (data : Tensor) (hdata : inp.data = some data) :
    (inp.check beyond parameter errors).errors
        = errors ++ (inp.slotErrors [dimensionSizeOf beyond data parameter.dimension]).take 1
      ∧ (inp.check beyond parameter errors).failure = none := by
  obtain ⟨d, w, b, pm, pv⟩ := inp
  simp only at hdata
  subst hdata
  simp only [Input.check, Input.checkBody, Input.get, Input.slotErrors, checkSlot,
    derefTensor, checkTensor_present, bind, Except.bind]
  generalize hn : dimensionSizeOf beyond data parameter.dimension = n
  cases w with
  | none =>
    cases b with
    | none =>
      cases hpm : checkTensor pm "populationMean in Input" (some [n]) <;>
        cases hpv : checkTensor pv "populationVariance in Input" (some [n]) <;>
        simp [finish, CheckRun.add, CheckRun.note, pure, Except.pure, hpm, hpv]
    | some b =>
      cases hb : checkTensor (some b) "biases in Input" (some [n]) <;>
        cases hpm : checkTensor pm "populationMean in Input" (some [n]) <;>
        cases hpv : checkTensor pv "populationVariance in Input" (some [n]) <;>
        simp [finish, CheckRun.add, CheckRun.note, pure, Except.pure, hb, hpm, hpv]
  | some w =>
    cases hw : checkTensor (some w) "weights in Input" (some [n]) <;>
    cases b with
    | none =>
      cases hpm : checkTensor pm "populationMean in Input" (some [n]) <;>
        cases hpv : checkTensor pv "populationVariance in Input" (some [n]) <;>
        simp [finish, CheckRun.add, CheckRun.note, pure, Except.pure, hw, hpm, hpv]
    | some b =>
      cases hb : checkTensor (some b) "biases in Input" (some [n]) <;>
        cases hpm : checkTensor pm "populationMean in Input" (some [n]) <;>
        cases hpv : checkTensor pv "populationVariance in Input" (some [n]) <;>
        simp [finish, CheckRun.add, CheckRun.note, pure, Except.pure, hw, hb, hpm, hpv]

/-- Run of `Input::check` on an input whose data tensor is present and whose
normalization dimension is an axis of it: the error collection gains the error
of the first failing slot check and nothing else. -/
theorem inputCheck_errors (inp : Input) (beyond : Nat) (parameter : Parameter)
    (errors : List Error) (data : Tensor) (hdata : inp.data = some data)
    (hdim : parameter.dimension < data.dims.length) :
    (inp.check beyond parameter errors).errors
        = errors ++ (inp.slotErrors [data.dims[parameter.dimension]]).take 1
      ∧ (inp.check beyond parameter errors).failure = none := by
  have h := inputCheck_errors_at inp beyond parameter errors data hdata
  rw [dimensionSizeOf_of_lt beyond data parameter.dimension hdim] at h
  exact h

/-- Run of `Input::check` on an input without data tensor: the check of the
data slot fails, its error is added and the method returns. -/
theorem inputCheck_null_data (inp : Input) (beyond : Nat) (parameter : Parameter)
    (errors : List Error) (hdata : inp.data = none) :
    inp.check beyond parameter errors
      = ⟨errors ++ [⟨ErrorID.ErrorNullTensor, "data in Input"⟩], ["data in Input"], none⟩ := by
  obtain ⟨d, w, b, pm, pv⟩ := inp
  simp only at hdata
  subst hdata
  rfl

/-- Run of `Input::check` on an input whose normalization dimension is not an
axis of the data tensor: the method does not test the dimension; it checks the
slots against the one-element shape that holds `beyond`, the value of the size
lookup, and the error collection gains the error of the first slot check that
fails against that shape. -/
theorem inputCheck_bad_dimension (inp : Input) (beyond : Nat) (parameter : Parameter)
    (errors : List Error) (data : Tensor) (hdata : inp.data = some data)
    (hdim : data.dims.length ≤ parameter.dimension) :
    (inp.check beyond parameter errors).errors
        = errors ++ (inp.slotErrors [beyond]).take 1
      ∧ (inp.check beyond parameter errors).failure = none := by
  have h := inputCheck_errors_at inp beyond parameter errors data hdata
  rw [dimensionSizeOf_of_ge beyond data parameter.dimension hdim] at h
  exact h

/-- Result of `Result::allocate` on an input whose data tensor is present and
whose normalization dimension is an axis of it: six objects are created at the
six next free addresses, and the two first auxiliary slots hold the pointers
of the input. -/
theorem resultAllocate_eq (res : Result) (input : Input) (parameter : Parameter)
    (T : FPType) (next : Nat) (data : Tensor) (hdata : input.data = some data)
    (hdim : parameter.dimension < data.dims.length) :
    res.allocate input parameter T next
      = Except.ok
          (⟨some (HomogenTensor.mk next T data.dims),
            some ⟨next + 1,
              [(0, some data), (1, input.weights),
               (2, some (HomogenTensor.mk (next + 2) T [data.dims[parameter.dimension]])),
               (3, some (HomogenTensor.mk (next + 3) T [data.dims[parameter.dimension]])),
               (4, some (HomogenTensor.mk (next + 4) T [data.dims[parameter.dimension]])),
               (5, some (HomogenTensor.mk (next + 5) T [data.dims[parameter.dimension]]))]⟩⟩,
           next + 6) := by
  obtain ⟨d, w, b, pm, pv⟩ := input
  simp only at hdata
  subst hdata
  simp only [Result.allocate, Result.allocateLayerData, Input.get,
    getDimensionSize_of_lt _ _ hdim, bind, Except.bind]
  rfl

/-- A present tensor of the expected shape passes its slot check. -/
theorem checkSlot_pass (t : Tensor) (argumentName : String) (ds : List Nat)
    (run : CheckRun) (h : t.dims = ds) :
    checkSlot (some t) argumentName (some ds) run = Except.ok (run.note argumentName) := by
  unfold checkSlot
  rw [(checkTensor_eq_none_iff t argumentName ds).mpr h]

/-- A value tensor that passes its shape check is present and has the
dimensions of the data tensor. -/
theorem value_of_check_pass (value : Option Tensor) (ds : List Nat)
    (h : checkTensor value "value" (some ds) = none) :
    ∃ v, value = some v ∧ v.dims = ds := by
  cases value with
  | none => simp [checkTensor_null] at h
  | some v => exact ⟨v, rfl, (checkTensor_eq_none_iff v "value" ds).mp h⟩

/-- Run of `Result::check` when the value tensor passes its shape check and the
collection is null, for any dimension: ErrorNullLayerData is added and the
method returns. The size held after the lookup is not used before the null
test. -/
theorem resultCheck_null_layerData (res : Result) (beyond : Nat) (input : Input)
    (parameter : Parameter) (errors : List Error) (data : Tensor)
    (hdata : input.data = some data)
    (hvalue : checkTensor res.value "value" (some data.getDimensions) = none)
    (hnull : res.resultForBackward = none) :
    res.check beyond input parameter errors
      = ⟨errors ++ [⟨ErrorID.ErrorNullLayerData, ""⟩], ["value"], none⟩ := by
  obtain ⟨v, hv, hvd⟩ := value_of_check_pass res.value _ hvalue
  obtain ⟨d, w, b, pm, pv⟩ := input
  obtain ⟨value, ld⟩ := res
  simp only at hdata hv hnull
  subst hdata hv hnull
  simp only [Result.check, Result.checkBody, Input.get, derefTensor,
    checkSlot_pass v "value" _ _ hvd, bind, Except.bind]
  rfl

/-- Run of `Result::check` on a result whose value tensor has the dimensions of
the data tensor and whose collection holds, under the six keys, the data
tensor, a tensor of the auxiliary shape and four more tensors of that shape:
every slot passes. -/
theorem resultCheck_six_slots (beyond : Nat) (input : Input) (parameter : Parameter)
    (errors : List Error) (data value w t2 t3 t4 t5 : Tensor) (addr : Nat)
    (hdata : input.data = some data)
    (hdim : parameter.dimension < data.dims.length)
    (hvalue : value.dims = data.dims)
    (hw : w.dims = [data.dims[parameter.dimension]])
    (h2 : t2.dims = [data.dims[parameter.dimension]])
    (h3 : t3.dims = [data.dims[parameter.dimension]])
    (h4 : t4.dims = [data.dims[parameter.dimension]])
    (h5 : t5.dims = [data.dims[parameter.dimension]]) :
    (Result.check ⟨some value, some ⟨addr, [(0, some data), (1, some w), (2, some t2),
        (3, some t3), (4, some t4), (5, some t5)]⟩⟩ beyond input parameter errors).errors = errors
      ∧ (Result.check ⟨some value, some ⟨addr, [(0, some data), (1, some w), (2, some t2),
        (3, some t3), (4, some t4), (5, some t5)]⟩⟩ beyond input parameter errors).failure
          = none := by
  obtain ⟨d, w0, b, pm, pv⟩ := input
  simp only at hdata
  subst hdata
  have hdim2 : parameter.dimension < value.dims.length := by
    rw [hvalue]; exact hdim
  have hn : value.dims[parameter.dimension] = data.dims[parameter.dimension] := by
    simp [hvalue]
  simp only [Result.check, Result.checkBody, Input.get, derefTensor, Tensor.getDimensions,
    checkSlot_pass value "value" _ _ hvalue, dimensionSizeOf_of_lt beyond _ _ hdim2, hn,
    bind, Except.bind, auxSlot, Result.get, LayerData.find, LayerDataId.key, LayerData.size]
  simp [checkSlot_pass data "auxData in Result" _ _ rfl,
    checkSlot_pass w "auxWeights in Result" _ _ hw,
    checkSlot_pass t2 "auxMean in Result" _ _ h2,
    checkSlot_pass t3 "auxStandardDeviation in Result" _ _ h3,
    checkSlot_pass t4 "auxPopulationMean in Result" _ _ h4,
    checkSlot_pass t5 "auxPopulationVariance in Result" _ _ h5,
    finish, CheckRun.note, pure, Except.pure]

/-- An error reported by `checkTensor` is never the structural size error. -/
theorem checkTensor_id (t : Option Tensor) (name : String) (dims : Option (List Nat))
    (e : Error) (h : checkTensor t name dims = some e) :
    e.id ≠ ErrorID.ErrorIncorrectSizeOfLayerData := by
  unfold checkTensor at h
  split at h
  · cases h; simp
  · split at h
    · cases h
    · split at h
      · cases h; simp
      · split at h
        · cases h; simp
        · cases h

/-- A slot check adds no structural size error. -/
theorem noSizeError_checkSlot {errors : List Error} {run : CheckRun}
    (h : NoSizeError errors run) (t : Option Tensor) (name : String)
    (dims : Option (List Nat)) :
    ∃ run2, NoSizeError errors run2 ∧
      (checkSlot t name dims run = Except.ok run2 ∨ checkSlot t name dims run = Except.error run2) := by
  unfold checkSlot
  cases hc : checkTensor t name dims with
  | none => exact ⟨run.note name, fun e he hid => h e he hid, Or.inl rfl⟩
  | some e =>
    refine ⟨_, ?_, Or.inr rfl⟩
    intro e2 he2 hid
    simp only [CheckRun.add, CheckRun.note, List.mem_append, List.mem_singleton] at he2
    rcases he2 with he2 | he2
    · exact h e2 he2 hid
    · subst he2
      exact absurd hid (checkTensor_id t name dims _ hc)

/-- No run of `Result::check` adds ErrorIncorrectSizeOfLayerData: the statement
that would add it is guarded by a test that is false whenever it is reached. -/
theorem resultCheck_no_size_error (res : Result) (beyond : Nat) (input : Input)
    (parameter : Parameter) (errors : List Error) :
    NoSizeError errors (res.check beyond input parameter errors) := by
  obtain ⟨value, ld⟩ := res
  have h0 : NoSizeError errors ⟨errors, [], none⟩ := fun e he _ => he
  unfold Result.check Result.checkBody
  simp only [bind, Except.bind, pure, Except.pure, derefTensor, auxSlot, Result.get]
  cases hd : input.get InputId.data with
  | none => exact h0
  | some data =>
    simp only
    obtain ⟨r1, hr1, h1 | h1⟩ := noSizeError_checkSlot h0 value "value" (some data.getDimensions)
    all_goals rw [h1]
    all_goals simp only [finish]
    · cases value with
      | none => exact hr1
      | some v =>
        simp only
        generalize dimensionSizeOf beyond v parameter.dimension = n
        cases ld with
        | none =>
          simp only [Option.isNone_none, if_true]
          intro e he hid
          simp only [CheckRun.add, List.mem_append, List.mem_singleton] at he
          rcases he with he | he
          · exact hr1 e he hid
          · subst he; cases hid
        | some l =>
          simp only [Option.isNone_some, Bool.false_eq_true, if_false, ite_self]
          obtain ⟨r2, hr2, h2 | h2⟩ := noSizeError_checkSlot hr1 (l.find LayerDataId.auxData.key)
            "auxData in Result" (some data.getDimensions)
          all_goals rw [h2]
          all_goals simp only
          · obtain ⟨r3, hr3, h3 | h3⟩ := noSizeError_checkSlot hr2 (l.find LayerDataId.auxWeights.key)
              "auxWeights in Result" (some [n])
            all_goals rw [h3]
            all_goals simp only
            · obtain ⟨r4, hr4, h4 | h4⟩ := noSizeError_checkSlot hr3 (l.find LayerDataId.auxMean.key)
                "auxMean in Result" (some [n])
              all_goals rw [h4]
              all_goals simp only
              · obtain ⟨r5, hr5, h5 | h5⟩ := noSizeError_checkSlot hr4
                  (l.find LayerDataId.auxStandardDeviation.key)
                  "auxStandardDeviation in Result" (some [n])
                all_goals rw [h5]
                all_goals simp only
                · obtain ⟨r6, hr6, h6 | h6⟩ := noSizeError_checkSlot hr5
                    (l.find LayerDataId.auxPopulationMean.key)
                    "auxPopulationMean in Result" (some [n])
                  all_goals rw [h6]
                  all_goals simp only
                  · obtain ⟨r7, hr7, h7 | h7⟩ := noSizeError_checkSlot hr6
                      (l.find LayerDataId.auxPopulationVariance.key)
                      "auxPopulationVariance in Result" (some [n])
                    all_goals rw [h7]
                    all_goals simp only
                    · exact hr7
                    · exact hr7
                  · exact hr6
                · exact hr5
              · exact hr4
            · exact hr3
          · exact hr2
    · exact hr1

/-! ## Input::check -/

/-- C1: when the data slot of the input is null, `Input::check` adds exactly one
error to the error collection, the one returned by the check of "data in
Input", and calls no further slot check, whatever the other slots and the
parameter hold. -/
theorem C1_check_null_data_one_error (beyond : Nat) (inp : Input) (parameter : Parameter)
    (errors : List Error) (hdata : inp.get InputId.data = none) :
    ∃ error, checkTensor (inp.get InputId.data) "data in Input" none = some error
      ∧ (inp.check beyond parameter errors).errors = errors ++ [error]
      ∧ (inp.check beyond parameter errors).checked = ["data in Input"]
      ∧ (inp.check beyond parameter errors).failure = none := by
  have h : inp.data = none := hdata
  refine ⟨⟨ErrorID.ErrorNullTensor, "data in Input"⟩, ?_, ?_, ?_, ?_⟩
  · rw [hdata]; rfl
  · rw [inputCheck_null_data inp beyond parameter errors h]
  · rw [inputCheck_null_data inp beyond parameter errors h]
  · rw [inputCheck_null_data inp beyond parameter errors h]

/-- Witness of C1 on the input without data tensor, dimension 1 and an empty
error collection. -/
theorem C1_check_null_data_one_error_witness :
    sampleInputNoData.get InputId.data = none
      ∧ ∃ error, checkTensor (sampleInputNoData.get InputId.data) "data in Input" none
            = some error
          ∧ (sampleInputNoData.check 0 ⟨1⟩ []).errors = [] ++ [error]
          ∧ (sampleInputNoData.check 0 ⟨1⟩ []).checked = ["data in Input"]
          ∧ (sampleInputNoData.check 0 ⟨1⟩ []).failure = none :=
  ⟨rfl, C1_check_null_data_one_error 0 sampleInputNoData ⟨1⟩ [] rfl⟩

/-- C2: on an input with a data tensor of rank r, a dimension below r, the two
population statistics present as 1-D tensors of length data.dims[dimension]
and weights and biases each absent or such a 1-D tensor, `Input::check` adds
no error and runs to its end. -/
theorem C2_check_valid_no_error (beyond : Nat) (inp : Input) (parameter : Parameter)
    (errors : List Error) (data mean variance : Tensor)
    (hdata : inp.data = some data)
    (hdim : parameter.dimension < data.dims.length)
    (hmean : inp.populationMean = some mean)
    (hmeanDims : mean.dims = [data.dims[parameter.dimension]])
    (hvariance : inp.populationVariance = some variance)
    (hvarianceDims : variance.dims = [data.dims[parameter.dimension]])
    (hweights : ∀ w, inp.weights = some w → w.dims = [data.dims[parameter.dimension]])
    (hbiases : ∀ b, inp.biases = some b → b.dims = [data.dims[parameter.dimension]]) :
    (inp.check beyond parameter errors).errors = errors
      ∧ (inp.check beyond parameter errors).failure = none := by
  obtain ⟨herr, hfail⟩ := inputCheck_errors inp beyond parameter errors data hdata hdim
  refine ⟨?_, hfail⟩
  rw [herr]
  have hs : inp.slotErrors [data.dims[parameter.dimension]] = [] := by
    obtain ⟨d, w, b, pm, pv⟩ := inp
    simp only at hdata hmean hvariance hweights hbiases
    subst hdata hmean hvariance
    have hm := (checkTensor_eq_none_iff mean "populationMean in Input" _).mpr hmeanDims
    have hv := (checkTensor_eq_none_iff variance "populationVariance in Input" _).mpr
      hvarianceDims
    cases w with
    | none =>
      cases b with
      | none => simp [Input.slotErrors, checkTensor_present, hm, hv]
      | some b =>
        have hb := (checkTensor_eq_none_iff b "biases in Input" _).mpr (hbiases b rfl)
        simp [Input.slotErrors, checkTensor_present, hm, hv, hb]
    | some w =>
      have hw := (checkTensor_eq_none_iff w "weights in Input" _).mpr (hweights w rfl)
      cases b with
      | none => simp [Input.slotErrors, checkTensor_present, hm, hv, hw]
      | some b =>
        have hb := (checkTensor_eq_none_iff b "biases in Input" _).mpr (hbiases b rfl)
        simp [Input.slotErrors, checkTensor_present, hm, hv, hw, hb]
  rw [hs]
  simp

/-- Witness of C2: data of shape [4,3], dimension 1 and the four auxiliary
tensors of shape [3]. -/
theorem C2_check_valid_no_error_witness :
    (sampleInput.check 0 ⟨1⟩ []).errors = []
      ∧ (sampleInput.check 0 ⟨1⟩ []).failure = none :=
  C2_check_valid_no_error 0 sampleInput ⟨1⟩ [] sampleData (sampleTensor 4 [3])
    (sampleTensor 5 [3]) rfl (by decide) rfl rfl rfl rfl
    (fun w hw => by cases hw; rfl) (fun b hb => by cases hb; rfl)

/-- C3: on an input with a data tensor and a valid dimension, `Input::check`
adds at least one error whenever populationMean or populationVariance is null
or is not a 1-D tensor of length data.dims[dimension], or a present weights or
biases tensor is not a 1-D tensor of that length. -/
theorem C3_check_bad_auxiliary_adds_error (beyond : Nat) (inp : Input) (parameter : Parameter)
    (errors : List Error) (data : Tensor)
    (hdata : inp.data = some data)
    (hdim : parameter.dimension < data.dims.length)
    (hbad :
      (∀ t, inp.populationMean = some t → t.dims ≠ [data.dims[parameter.dimension]])
      ∨ (∀ t, inp.populationVariance = some t → t.dims ≠ [data.dims[parameter.dimension]])
      ∨ (∃ w, inp.weights = some w ∧ w.dims ≠ [data.dims[parameter.dimension]])
      ∨ (∃ b, inp.biases = some b ∧ b.dims ≠ [data.dims[parameter.dimension]])) :
    ∃ added, added ≠ [] ∧ (inp.check beyond parameter errors).errors = errors ++ added := by
  obtain ⟨herr, -⟩ := inputCheck_errors inp beyond parameter errors data hdata hdim
  refine ⟨(inp.slotErrors [data.dims[parameter.dimension]]).take 1, ?_, herr⟩
  have hne : inp.slotErrors [data.dims[parameter.dimension]] ≠ [] := by
    obtain ⟨d, w, b, pm, pv⟩ := inp
    simp only at hdata hbad
    subst hdata
    have hfail : ∀ (t : Option Tensor) (name : String),
        (∀ x, t = some x → x.dims ≠ [data.dims[parameter.dimension]]) →
        (checkTensor t name (some [data.dims[parameter.dimension]])).toList ≠ [] := by
      intro t name ht
      cases t with
      | none => simp [checkTensor_null]
      | some x =>
        cases hc : checkTensor (some x) name (some [data.dims[parameter.dimension]]) with
        | none => exact absurd ((checkTensor_eq_none_iff x name _).mp hc) (ht x rfl)
        | some e => simp
    simp only [Input.slotErrors]
    rcases hbad with hpm | hpv | ⟨w0, hw0, hwd⟩ | ⟨b0, hb0, hbd⟩
    · intro h
      simp only [List.append_eq_nil] at h
      exact hfail pm "populationMean in Input" hpm h.1.2
    · intro h
      simp only [List.append_eq_nil] at h
      exact hfail pv "populationVariance in Input" hpv h.2
    · subst hw0
      intro h
      simp only [List.append_eq_nil, Option.isSome_some, if_true] at h
      exact hfail (some w0) "weights in Input" (fun x hx => by cases hx; exact hwd) h.1.1.1.2
    · subst hb0
      intro h
      simp only [List.append_eq_nil, Option.isSome_some, if_true] at h
      exact hfail (some b0) "biases in Input" (fun x hx => by cases hx; exact hbd) h.1.1.2
  cases hl : inp.slotErrors [data.dims[parameter.dimension]] with
  | nil => exact absurd hl hne
  | cons e es => simp

/-- Witness of C3: data of shape [4,3], dimension 1 and no populationMean. -/
theorem C3_check_bad_auxiliary_adds_error_witness :
    sampleInputNoMean.populationMean = none
      ∧ ∃ added, added ≠ [] ∧ (sampleInputNoMean.check 0 ⟨1⟩ []).errors = [] ++ added :=
  ⟨rfl, C3_check_bad_auxiliary_adds_error 0 sampleInputNoMean ⟨1⟩ [] sampleData rfl
    (by decide) (Or.inl (fun t ht => by cases ht))⟩

/-- Counterexample to C4: with data of shape [4,3] and dimension 1, both
population statistics have a wrong shape, so two of the checked slots fail
their check, yet `Input::check` adds one error only, the one of
populationMean. -/
theorem C4_two_failing_slots_one_error :
    (sampleInputTwoWrong.slotErrors [3]).length = 2
      ∧ ∀ beyond : Nat, (sampleInputTwoWrong.check beyond ⟨1⟩ []).errors
          = [⟨ErrorID.ErrorIncorrectSizeOfDimensionInTensor, "populationMean in Input"⟩] :=
  ⟨by decide, fun _ => rfl⟩

/-- C4 as amended: on an input with a data tensor and a valid dimension,
`Input::check` returns at the first slot check that fails. Of the k errors
that the failing slot checks report, the error collection gains the first one
only, that is min(k,1) errors. -/
theorem C4_check_stops_at_first_error (beyond : Nat) (inp : Input) (parameter : Parameter)
    (errors : List Error) (data : Tensor)
    (hdata : inp.data = some data)
    (hdim : parameter.dimension < data.dims.length) :
    (inp.check beyond parameter errors).errors
        = errors ++ (inp.slotErrors [data.dims[parameter.dimension]]).take 1
      ∧ (inp.check beyond parameter errors).errors.length
        = errors.length + min (inp.slotErrors [data.dims[parameter.dimension]]).length 1 := by
  obtain ⟨herr, -⟩ := inputCheck_errors inp beyond parameter errors data hdata hdim
  refine ⟨herr, ?_⟩
  rw [herr, List.length_append, List.length_take, Nat.min_comm]

/-- Witness of C4 as amended, on the input with two wrong-shaped population
statistics. -/
theorem C4_check_stops_at_first_error_witness :
    (⟨1⟩ : Parameter).dimension < sampleData.dims.length
      ∧ (sampleInputTwoWrong.check 0 ⟨1⟩ []).errors
          = [] ++ (sampleInputTwoWrong.slotErrors [sampleData.dims[1]]).take 1
      ∧ (sampleInputTwoWrong.check 0 ⟨1⟩ []).errors.length
          = ([] : List Error).length
            + min (sampleInputTwoWrong.slotErrors [sampleData.dims[1]]).length 1 :=
  ⟨by decide, C4_check_stops_at_first_error 0 sampleInputTwoWrong ⟨1⟩ [] sampleData rfl
    (by decide)⟩

/-- Counterexample to C5: data of shape [4,3] and dimension 2, which is not an
axis of the data tensor; weights and biases absent. Whatever value s the size
lookup hands to `Input::check` for the missing axis, the input whose two
population statistics have the one-element shape [s] passes every slot check,
and `Input::check` adds no error. -/
theorem C5_bad_dimension_no_error :
    sampleData.dims.length ≤ (⟨2⟩ : Parameter).dimension
      ∧ ∀ s : Nat, ((sampleInputStats s).check s ⟨2⟩ []).errors = []
          ∧ ((sampleInputStats s).check s ⟨2⟩ []).checked
              = ["data in Input", "populationMean in Input", "populationVariance in Input"] := by
  refine ⟨by decide, fun s => ?_⟩
  have h1 : checkTensor (some (sampleTensor 4 [s])) "populationMean in Input" (some [s])
      = none := (checkTensor_eq_none_iff _ _ _).mpr rfl
  have h2 : checkTensor (some (sampleTensor 5 [s])) "populationVariance in Input" (some [s])
      = none := (checkTensor_eq_none_iff _ _ _).mpr rfl
  have hd : dimensionSizeOf s sampleData (⟨2⟩ : Parameter).dimension = s :=
    dimensionSizeOf_of_ge s sampleData 2 (by decide)
  simp only [sampleInputStats, Input.check, Input.checkBody, Input.get, checkSlot,
    derefTensor, checkTensor_present, bind, Except.bind, hd, h1, h2, Option.isSome_none,
    Bool.false_eq_true, if_false, pure, Except.pure, finish, CheckRun.note, List.nil_append,
    List.cons_append, and_self]

/-- C5 as amended: `Input::check` never compares the dimension with the rank. On
an input with a data tensor of rank r and a dimension that is at least r it
checks the slots against the one-element shape [s], where s is the value the
size lookup hands back for the missing axis, and runs to its end or to the
first failing check. It adds an error, the one of the first failing slot,
exactly when a present weights or biases tensor, populationMean or
populationVariance fails its check against [s], and none when all of them
pass. -/
theorem C5_check_bad_dimension_checks_slots (s : Nat) (inp : Input) (parameter : Parameter)
    (errors : List Error) (data : Tensor)
    (hdata : inp.data = some data)
    (hdim : data.dims.length ≤ parameter.dimension) :
    (inp.check s parameter errors).errors = errors ++ (inp.slotErrors [s]).take 1
      ∧ ((inp.check s parameter errors).errors = errors ↔ inp.slotErrors [s] = [])
      ∧ (inp.check s parameter errors).failure = none := by
  obtain ⟨herr, hfail⟩ := inputCheck_bad_dimension inp s parameter errors data hdata hdim
  refine ⟨herr, ?_, hfail⟩
  rw [herr]
  cases hl : inp.slotErrors [s] with
  | nil => simp
  | cons e es => simp

/-- Witness of C5 as amended: data of shape [4,3], dimension 2 and the value 7 of
the lookup. With the four auxiliary tensors of shape [3] the weights check
fails against [7] and its error is the one added; with the two population
statistics of shape [7] and no weights and biases nothing is added. -/
theorem C5_check_bad_dimension_checks_slots_witness :
    sampleData.dims.length ≤ (⟨2⟩ : Parameter).dimension
      ∧ (sampleInput.check 7 ⟨2⟩ []).errors
          = [⟨ErrorID.ErrorIncorrectSizeOfDimensionInTensor, "weights in Input"⟩]
      ∧ ((sampleInputStats 7).check 7 ⟨2⟩ []).errors
          = [] ++ ((sampleInputStats 7).slotErrors [7]).take 1
      ∧ (((sampleInputStats 7).check 7 ⟨2⟩ []).errors = []
          ↔ (sampleInputStats 7).slotErrors [7] = [])
      ∧ ((sampleInputStats 7).check 7 ⟨2⟩ []).failure = none :=
  ⟨by decide, by decide,
    C5_check_bad_dimension_checks_slots 7 (sampleInputStats 7) ⟨2⟩ [] sampleData rfl
      (by decide)⟩

/-! ## Result::check and Result::allocate -/

/-- C6, the code at two failing inputs. The value tensor has the shape [4,3] of
the data tensor and the dimension is 1. With seven entries, six of them the
auxiliary slots in the right shape, `Result::check` adds no error at all; with
no entry it adds the null-tensor error of auxData. ErrorIncorrectSizeOfLayerData
is added in neither run, although neither collection has six entries. -/
theorem C6_size_mismatch_not_reported :
    (sampleResultSeven.resultForBackward.map LayerData.size = some 7
      ∧ checkTensor sampleResultSeven.value "value" (some sampleData.getDimensions) = none
      ∧ ∀ beyond : Nat, (sampleResultSeven.check beyond sampleInput ⟨1⟩ []).errors = [])
    ∧ (sampleResultEmpty.resultForBackward.map LayerData.size = some 0
      ∧ checkTensor sampleResultEmpty.value "value" (some sampleData.getDimensions) = none
      ∧ ∀ beyond : Nat, (sampleResultEmpty.check beyond sampleInput ⟨1⟩ []).errors
          = [⟨ErrorID.ErrorNullTensor, "auxData in Result"⟩]) :=
  ⟨⟨by decide, by decide, fun _ => rfl⟩, by decide, by decide, fun _ => rfl⟩

/-- C7: when the value tensor passes its shape check and the resultForBackward
collection is null, `Result::check` adds exactly one error, ErrorNullLayerData,
and checks no auxiliary tensor: the trace of slot checks holds the value check
only. This holds for every parameter, whatever the size lookup between the
value check and the null test hands back. -/
theorem C7_check_null_layerData (beyond : Nat) (res : Result) (input : Input)
    (parameter : Parameter) (errors : List Error) (data : Tensor)
    (hdata : input.get InputId.data = some data)
    (hvalue : checkTensor res.value "value" (some data.getDimensions) = none)
    (hnull : res.resultForBackward = none) :
    (res.check beyond input parameter errors).errors
        = errors ++ [⟨ErrorID.ErrorNullLayerData, ""⟩]
      ∧ (res.check beyond input parameter errors).checked = ["value"]
      ∧ (res.check beyond input parameter errors).failure = none := by
  rw [resultCheck_null_layerData res beyond input parameter errors data hdata hvalue hnull]
  exact ⟨rfl, rfl, rfl⟩

/-- Witness of C7: value of shape [4,3] and null collection, with dimension 1 and
with dimension 2, which is not an axis. -/
theorem C7_check_null_layerData_witness :
    checkTensor sampleResultNoLayerData.value "value" (some sampleData.getDimensions) = none
      ∧ ((sampleResultNoLayerData.check 0 sampleInput ⟨1⟩ []).errors
          = [] ++ [⟨ErrorID.ErrorNullLayerData, ""⟩]
        ∧ (sampleResultNoLayerData.check 0 sampleInput ⟨1⟩ []).checked = ["value"]
        ∧ (sampleResultNoLayerData.check 0 sampleInput ⟨1⟩ []).failure = none)
      ∧ ((sampleResultNoLayerData.check 7 sampleInput ⟨2⟩ []).errors
          = [] ++ [⟨ErrorID.ErrorNullLayerData, ""⟩]
        ∧ (sampleResultNoLayerData.check 7 sampleInput ⟨2⟩ []).checked = ["value"]
        ∧ (sampleResultNoLayerData.check 7 sampleInput ⟨2⟩ []).failure = none) :=
  ⟨by decide,
    C7_check_null_layerData 0 sampleResultNoLayerData sampleInput ⟨1⟩ [] sampleData rfl
      (by decide) rfl,
    C7_check_null_layerData 7 sampleResultNoLayerData sampleInput ⟨2⟩ [] sampleData rfl
      (by decide) rfl⟩

/-- Counterexample to C8: data of shape [4,3], dimension 1, the population
statistics of shape [3], weights and biases absent. `Input::check` adds no
error, `Result::allocate` succeeds, and `Result::check` on the allocated
result adds the null-tensor error of auxWeights. -/
theorem C8_absent_weights_fail_result_check :
    (∀ beyond : Nat, (sampleInputNoWeights.check beyond ⟨1⟩ []).errors = [])
      ∧ ∃ r n, emptyResult.allocate sampleInputNoWeights ⟨1⟩ FPType.double 100
            = Except.ok (r, n)
          ∧ ∀ beyond : Nat, (r.check beyond sampleInputNoWeights ⟨1⟩ []).errors
              = [⟨ErrorID.ErrorNullTensor, "auxWeights in Result"⟩] :=
  ⟨fun _ => rfl, _, _, rfl, fun _ => rfl⟩

/-- C8 as amended: for every input with a data tensor, a dimension that is an
axis of it and a weights tensor present as a 1-D tensor of length
data.dims[dimension], `Result::allocate` succeeds and `Result::check` on the
allocated result, with the same input and parameter, adds no error. -/
theorem C8_allocate_then_check (beyond : Nat) (res : Result) (input : Input) (parameter : Parameter)
    (T : FPType) (next : Nat) (errors : List Error) (data w : Tensor)
    (hdata : input.data = some data)
    (hdim : parameter.dimension < data.dims.length)
    (hweights : input.weights = some w)
    (hweightsDims : w.dims = [data.dims[parameter.dimension]]) :
    ∃ r n, res.allocate input parameter T next = Except.ok (r, n)
      ∧ (r.check beyond input parameter errors).errors = errors
      ∧ (r.check beyond input parameter errors).failure = none := by
  refine ⟨_, _, resultAllocate_eq res input parameter T next data hdata hdim, ?_⟩
  rw [hweights]
  exact resultCheck_six_slots beyond input parameter errors data _ w _ _ _ _ _ hdata hdim
    rfl hweightsDims rfl rfl rfl rfl

/-- Witness of C8 as amended: data of shape [4,3], dimension 1, weights of shape [3]. -/
theorem C8_allocate_then_check_witness :
    (⟨1⟩ : Parameter).dimension < sampleData.dims.length
      ∧ ∃ r n, emptyResult.allocate sampleInput ⟨1⟩ FPType.double 100 = Except.ok (r, n)
          ∧ (r.check 0 sampleInput ⟨1⟩ []).errors = []
          ∧ (r.check 0 sampleInput ⟨1⟩ []).failure = none :=
  ⟨by decide, C8_allocate_then_check 0 emptyResult sampleInput ⟨1⟩ FPType.double 100 []
    sampleData (sampleTensor 2 [3]) rfl (by decide) rfl rfl⟩

/-- Counterexample to C9: `Result::allocate` is called twice with the same input
(data of shape [4,3], dimension 1), the second time on the result of the first
call. The second call creates a new value tensor, a new collection and new
statistics tensors: none of them is the object of the first call. -/
theorem C9_second_allocate_reallocates :
    ∃ r1 r2 n1 n2,
      emptyResult.allocate sampleInput ⟨1⟩ FPType.double 100 = Except.ok (r1, n1)
      ∧ r1.allocate sampleInput ⟨1⟩ FPType.double n1 = Except.ok (r2, n2)
      ∧ r1.value.map Tensor.addr = some 100
      ∧ r2.value.map Tensor.addr = some 106
      ∧ r1.resultForBackward.map LayerData.addr = some 101
      ∧ r2.resultForBackward.map LayerData.addr = some 107
      ∧ (r1.get LayerDataId.auxMean).toOption.join.map Tensor.addr = some 102
      ∧ (r2.get LayerDataId.auxMean).toOption.join.map Tensor.addr = some 108 :=
  ⟨_, _, _, _, rfl, rfl, by decide, by decide, by decide, by decide, by decide, by decide⟩

/-- C9 as amended: `Result::allocate` allocates anew at every call. For every
input with a data tensor and a valid dimension, a second call with the same
input gives the value tensor, the resultForBackward collection and the four
statistics tensors new identities and the same dimensions as the first call;
only auxData and auxWeights, which are the pointers of the input, are the same
references after both calls. -/
theorem C9_allocate_twice (res : Result) (input : Input) (parameter : Parameter)
    (T : FPType) (next next2 : Nat) (data : Tensor)
    (hdata : input.data = some data)
    (hdim : parameter.dimension < data.dims.length)
    (hnext : next + 6 ≤ next2) :
    ∃ r1 r2 v1 v2 l1 l2,
      res.allocate input parameter T next = Except.ok (r1, next + 6)
      ∧ r1.allocate input parameter T next2 = Except.ok (r2, next2 + 6)
      ∧ r1.value = some v1 ∧ r2.value = some v2
      ∧ v1.addr ≠ v2.addr ∧ v1.dims = v2.dims
      ∧ r1.resultForBackward = some l1 ∧ r2.resultForBackward = some l2
      ∧ l1.addr ≠ l2.addr
      ∧ l1.find LayerDataId.auxData.key = input.data
      ∧ l2.find LayerDataId.auxData.key = input.data
      ∧ l1.find LayerDataId.auxWeights.key = input.weights
      ∧ l2.find LayerDataId.auxWeights.key = input.weights
      ∧ ∀ id ∈ [LayerDataId.auxMean, LayerDataId.auxStandardDeviation,
            LayerDataId.auxPopulationMean, LayerDataId.auxPopulationVariance],
          ∃ t1 t2, l1.find id.key = some t1 ∧ l2.find id.key = some t2
            ∧ t1.addr ≠ t2.addr ∧ t1.dims = t2.dims := by
  refine ⟨_, _, _, _, _, _,
    resultAllocate_eq res input parameter T next data hdata hdim,
    resultAllocate_eq _ input parameter T next2 data hdata hdim,
    rfl, rfl, ?_, rfl, rfl, rfl, ?_, ?_, ?_, rfl, rfl, ?_⟩
  · simp only [HomogenTensor.mk]; omega
  · simp only; omega
  · simp [LayerData.find, LayerDataId.key, hdata]
  · simp [LayerData.find, LayerDataId.key, hdata]
  · intro id hid
    simp only [List.mem_cons, List.mem_singleton, List.not_mem_nil, or_false] at hid
    rcases hid with h | h | h | h <;> subst h <;>
      refine ⟨_, _, rfl, rfl, ?_, rfl⟩ <;>
      simp only [HomogenTensor.mk] <;> omega

/-- Witness of C9 as amended: data of shape [4,3], dimension 1, first call at
address 100 and second call at address 106. -/
theorem C9_allocate_twice_witness :
    (⟨1⟩ : Parameter).dimension < sampleData.dims.length
    ∧ ∃ r1 r2 v1 v2 l1 l2,
      emptyResult.allocate sampleInput ⟨1⟩ FPType.double 100 = Except.ok (r1, 100 + 6)
      ∧ r1.allocate sampleInput ⟨1⟩ FPType.double 106 = Except.ok (r2, 106 + 6)
      ∧ r1.value = some v1 ∧ r2.value = some v2
      ∧ v1.addr ≠ v2.addr ∧ v1.dims = v2.dims
      ∧ r1.resultForBackward = some l1 ∧ r2.resultForBackward = some l2
      ∧ l1.addr ≠ l2.addr
      ∧ l1.find LayerDataId.auxData.key = sampleInput.data
      ∧ l2.find LayerDataId.auxData.key = sampleInput.data
      ∧ l1.find LayerDataId.auxWeights.key = sampleInput.weights
      ∧ l2.find LayerDataId.auxWeights.key = sampleInput.weights
      ∧ ∀ id ∈ [LayerDataId.auxMean, LayerDataId.auxStandardDeviation,
            LayerDataId.auxPopulationMean, LayerDataId.auxPopulationVariance],
          ∃ t1 t2, l1.find id.key = some t1 ∧ l2.find id.key = some t2
            ∧ t1.addr ≠ t2.addr ∧ t1.dims = t2.dims :=
  ⟨by decide, C9_allocate_twice emptyResult sampleInput ⟨1⟩ FPType.double 100 106
    sampleData rfl (by decide) (by decide)⟩

/-- C10: for every input with a data tensor and a valid dimension d,
`Result::allocate` succeeds; afterwards the value tensor has exactly the
dimensions of the data tensor, the resultForBackward collection holds exactly
the six slots auxData, auxWeights, auxMean, auxStandardDeviation,
auxPopulationMean and auxPopulationVariance, and the last four hold 1-D
tensors of length data.dims[d]. -/
theorem C10_allocate_shapes (res : Result) (input : Input) (parameter : Parameter)
    (T : FPType) (next : Nat) (data : Tensor)
    (hdata : input.get InputId.data = some data)
    (hdim : parameter.dimension < data.getDimensions.length) :
    ∃ r n v l,
      res.allocate input parameter T next = Except.ok (r, n)
      ∧ r.value = some v ∧ v.getDimensions = data.getDimensions
      ∧ r.resultForBackward = some l
      ∧ l.size = 6
      ∧ l.entries.map Prod.fst
          = [LayerDataId.auxData.key, LayerDataId.auxWeights.key, LayerDataId.auxMean.key,
             LayerDataId.auxStandardDeviation.key, LayerDataId.auxPopulationMean.key,
             LayerDataId.auxPopulationVariance.key]
      ∧ ∀ id ∈ [LayerDataId.auxMean, LayerDataId.auxStandardDeviation,
            LayerDataId.auxPopulationMean, LayerDataId.auxPopulationVariance],
          ∃ t, r.get id = Except.ok (some t)
            ∧ t.getDimensions = [data.getDimensions[parameter.dimension]] := by
  refine ⟨_, _, _, _, resultAllocate_eq res input parameter T next data hdata hdim,
    rfl, rfl, rfl, rfl, rfl, ?_⟩
  intro id hid
  simp only [List.mem_cons, List.mem_singleton, List.not_mem_nil, or_false] at hid
  rcases hid with h | h | h | h <;> subst h <;> exact ⟨_, rfl, rfl⟩

/-- Witness of C10: data of shape [4,3] and d = 1 give six slots, the four
statistics of shape [3]. -/
theorem C10_allocate_shapes_witness :
    sampleData.getDimensions = [4, 3]
    ∧ ∃ r n v l,
      emptyResult.allocate sampleInput ⟨1⟩ FPType.double 100 = Except.ok (r, n)
      ∧ r.value = some v ∧ v.getDimensions = sampleData.getDimensions
      ∧ r.resultForBackward = some l
      ∧ l.size = 6
      ∧ l.entries.map Prod.fst
          = [LayerDataId.auxData.key, LayerDataId.auxWeights.key, LayerDataId.auxMean.key,
             LayerDataId.auxStandardDeviation.key, LayerDataId.auxPopulationMean.key,
             LayerDataId.auxPopulationVariance.key]
      ∧ ∀ id ∈ [LayerDataId.auxMean, LayerDataId.auxStandardDeviation,
            LayerDataId.auxPopulationMean, LayerDataId.auxPopulationVariance],
          ∃ t, r.get id = Except.ok (some t)
            ∧ t.getDimensions = [sampleData.getDimensions[(⟨1⟩ : Parameter).dimension]] :=
  ⟨rfl, C10_allocate_shapes emptyResult sampleInput ⟨1⟩ FPType.double 100 sampleData rfl
    (by decide)⟩

end BatchNorm

namespace BatchNorm

/-- Sizes returned by `Input::getWeightsSizes` for a present data tensor and a
dimension that is an axis of it. -/
theorem getWeightsSizes_of_lt (inp : Input) (parameter : Parameter) (data : Tensor)
    (hdata : inp.data = some data) (hdim : parameter.dimension < data.dims.length) :
    inp.getWeightsSizes parameter = Except.ok [data.dims[parameter.dimension]] := by
  unfold Input.getWeightsSizes
  simp only [Input.get, hdata, Tensor.getDimensions]
  rw [List.get?_eq_get hdim]
  rfl

/-- Result of `Input::allocate` for a present data tensor and a dimension that
is an axis of it: an absent weights slot receives a new tensor at the next
free address, then an absent biases slot receives one at the address after. -/
theorem inputAllocate_eq (inp : Input) (parameter : Parameter) (T : FPType) (next : Nat)
    (data : Tensor) (hdata : inp.data = some data)
    (hdim : parameter.dimension < data.dims.length) :
    inp.allocate parameter T next
      = Except.ok
          ({ inp with
              weights :=
                match inp.weights with
                | some w => some w
                | none => some (HomogenTensor.mkFilled next FPType.float
                    [data.dims[parameter.dimension]] (1, 2))
              biases :=
                match inp.biases with
                | some b => some b
                | none => some (HomogenTensor.mkFilled
                    (if inp.weights.isNone then next + 1 else next) FPType.float
                    [data.dims[parameter.dimension]] (0, 1)) },
           (if inp.weights.isNone then next + 1 else next)
             + (if inp.biases.isNone then 1 else 0)) := by
  obtain ⟨d, w, b, pm, pv⟩ := inp
  simp only at hdata
  subst hdata
  have hs : ∀ w' b', Input.getWeightsSizes ⟨some data, w', b', pm, pv⟩ parameter
      = Except.ok [data.dims[parameter.dimension]] :=
    fun w' b' => getWeightsSizes_of_lt _ parameter data rfl hdim
  cases w <;> cases b <;>
    simp [Input.allocate, Input.get, Input.set, Input.getBiasesSizes, hs, bind, Except.bind,
      pure, Except.pure]

/-- Frame of `Input::allocate`: whenever the call returns, the data slot and the
two population statistics are the ones before the call, and a weights or
biases tensor that was present is still the one in its slot. -/
theorem inputAllocate_frame (inp : Input) (parameter : Parameter) (T : FPType)
    (next : Nat) (inp2 : Input) (n : Nat)
    (h : inp.allocate parameter T next = Except.ok (inp2, n)) :
    inp2.data = inp.data
      ∧ inp2.populationMean = inp.populationMean
      ∧ inp2.populationVariance = inp.populationVariance
      ∧ (∀ w, inp.weights = some w → inp2.weights = some w)
      ∧ (∀ b, inp.biases = some b → inp2.biases = some b) := by
  obtain ⟨d, w, b, pm, pv⟩ := inp
  cases w with
  | none =>
    cases hs : Input.getWeightsSizes ⟨d, none, b, pm, pv⟩ parameter with
    | error f =>
      simp [Input.allocate, Input.get, hs, bind, Except.bind] at h
    | ok sizes =>
      cases b with
      | none =>
        cases hs2 : Input.getWeightsSizes ⟨d, some (HomogenTensor.mkFilled next FPType.float
            sizes (1, 2)), none, pm, pv⟩ parameter with
        | error f =>
          simp [Input.allocate, Input.get, Input.set, Input.getBiasesSizes, hs, hs2, bind,
            Except.bind, pure, Except.pure] at h
        | ok sizes2 =>
          simp [Input.allocate, Input.get, Input.set, Input.getBiasesSizes, hs, hs2, bind,
            Except.bind, pure, Except.pure] at h
          obtain ⟨h1, -⟩ := h
          subst h1
          simp
      | some b0 =>
        simp [Input.allocate, Input.get, Input.set, Input.getBiasesSizes, hs, bind,
          Except.bind, pure, Except.pure] at h
        obtain ⟨h1, -⟩ := h
        subst h1
        simp
  | some w0 =>
    cases b with
    | none =>
      cases hs2 : Input.getWeightsSizes ⟨d, some w0, none, pm, pv⟩ parameter with
      | error f =>
        simp [Input.allocate, Input.get, Input.set, Input.getBiasesSizes, hs2, bind,
          Except.bind, pure, Except.pure] at h
      | ok sizes2 =>
        simp [Input.allocate, Input.get, Input.set, Input.getBiasesSizes, hs2, bind,
          Except.bind, pure, Except.pure] at h
        obtain ⟨h1, -⟩ := h
        subst h1
        simp
    | some b0 =>
      simp [Input.allocate, Input.get, Input.set, bind, Except.bind, pure, Except.pure] at h
      obtain ⟨h1, -⟩ := h
      subst h1
      simp

end BatchNorm

namespace BatchNorm

/-- C11: `Result::getValueSize` returns its argument inputSize unchanged for
every inputSize, parameter and method, so its result does not depend on the
method; and for an input with a data tensor and a valid dimension it is the
dimensions that `Result::allocate` gives the value tensor. -/
theorem C11_getValueSize_identity (res : Result) (input : Input) (parameter : Parameter)
    (T : FPType) (next : Nat) (data : Tensor)
    (hdata : input.get InputId.data = some data)
    (hdim : parameter.dimension < data.getDimensions.length) :
    (∀ (inputSize : List Nat) (par : Parameter) (method : Int),
        Result.getValueSize inputSize par method = inputSize)
      ∧ (∀ (inputSize : List Nat) (par : Parameter) (method1 method2 : Int),
        Result.getValueSize inputSize par method1
          = Result.getValueSize inputSize par method2)
      ∧ ∃ r n v, res.allocate input parameter T next = Except.ok (r, n)
          ∧ r.value = some v
          ∧ ∀ method : Int,
              v.getDimensions = Result.getValueSize data.getDimensions parameter method := by
  refine ⟨fun _ _ _ => rfl, fun _ _ _ _ => rfl, _, _, _,
    resultAllocate_eq res input parameter T next data hdata hdim, rfl, fun _ => rfl⟩

/-- Witness of C11: data of shape [4,3], dimension 1. -/
theorem C11_getValueSize_identity_witness :
    sampleInput.get InputId.data = some sampleData
      ∧ (∀ (inputSize : List Nat) (par : Parameter) (method : Int),
        Result.getValueSize inputSize par method = inputSize)
      ∧ (∀ (inputSize : List Nat) (par : Parameter) (method1 method2 : Int),
        Result.getValueSize inputSize par method1
          = Result.getValueSize inputSize par method2)
      ∧ ∃ r n v, emptyResult.allocate sampleInput ⟨1⟩ FPType.double 100 = Except.ok (r, n)
          ∧ r.value = some v
          ∧ ∀ method : Int,
              v.getDimensions = Result.getValueSize sampleData.getDimensions ⟨1⟩ method :=
  ⟨rfl, C11_getValueSize_identity emptyResult sampleInput ⟨1⟩ FPType.double 100 sampleData
    rfl (by decide)⟩

/-- C12: for an input with a data tensor and a valid dimension d,
`Input::allocate` returns; an absent weights slot then holds a 1-D tensor of
length data.dims[d], the shape that `getWeightsSizes` returns, filled with 0.5,
and an absent biases slot holds a 1-D tensor of that length, the shape that
`getBiasesSizes` returns, filled with 0.0. -/
theorem C12_allocate_synthesizes (inp : Input) (parameter : Parameter) (T : FPType)
    (next : Nat) (data : Tensor)
    (hdata : inp.get InputId.data = some data)
    (hdim : parameter.dimension < data.getDimensions.length) :
    ∃ inp2 n, inp.allocate parameter T next = Except.ok (inp2, n)
      ∧ inp.getWeightsSizes parameter = Except.ok [data.getDimensions[parameter.dimension]]
      ∧ inp.getBiasesSizes parameter = inp.getWeightsSizes parameter
      ∧ (inp.get InputId.weights = none →
          ∃ w, inp2.get InputId.weights = some w
            ∧ w.getDimensions = [data.getDimensions[parameter.dimension]]
            ∧ inp.getWeightsSizes parameter = Except.ok w.getDimensions
            ∧ w.fill = some (1, 2))
      ∧ (inp.get InputId.biases = none →
          ∃ b, inp2.get InputId.biases = some b
            ∧ b.getDimensions = [data.getDimensions[parameter.dimension]]
            ∧ inp.getBiasesSizes parameter = Except.ok b.getDimensions
            ∧ b.fill = some (0, 1)) := by
  have hs := getWeightsSizes_of_lt inp parameter data hdata hdim
  refine ⟨_, _, inputAllocate_eq inp parameter T next data hdata hdim, hs, rfl, ?_, ?_⟩
  · intro hw
    have hw2 : inp.weights = none := hw
    refine ⟨HomogenTensor.mkFilled next FPType.float [data.dims[parameter.dimension]] (1, 2),
      ?_, rfl, hs, rfl⟩
    simp [Input.get, hw2]
  · intro hb
    have hb2 : inp.biases = none := hb
    refine ⟨HomogenTensor.mkFilled (if inp.weights.isNone then next + 1 else next)
      FPType.float [data.dims[parameter.dimension]] (0, 1), ?_, rfl, hs, rfl⟩
    simp [Input.get, hb2]

/-- Witness of C12: data of shape [4,3], dimension 1, weights and biases absent. -/
theorem C12_allocate_synthesizes_witness :
    sampleInputNoWeights.get InputId.weights = none
    ∧ sampleInputNoWeights.get InputId.biases = none
    ∧ ∃ inp2 n, sampleInputNoWeights.allocate ⟨1⟩ FPType.double 50 = Except.ok (inp2, n)
      ∧ sampleInputNoWeights.getWeightsSizes ⟨1⟩
          = Except.ok [sampleData.getDimensions[(⟨1⟩ : Parameter).dimension]]
      ∧ sampleInputNoWeights.getBiasesSizes ⟨1⟩ = sampleInputNoWeights.getWeightsSizes ⟨1⟩
      ∧ (sampleInputNoWeights.get InputId.weights = none →
          ∃ w, inp2.get InputId.weights = some w
            ∧ w.getDimensions = [sampleData.getDimensions[(⟨1⟩ : Parameter).dimension]]
            ∧ sampleInputNoWeights.getWeightsSizes ⟨1⟩ = Except.ok w.getDimensions
            ∧ w.fill = some (1, 2))
      ∧ (sampleInputNoWeights.get InputId.biases = none →
          ∃ b, inp2.get InputId.biases = some b
            ∧ b.getDimensions = [sampleData.getDimensions[(⟨1⟩ : Parameter).dimension]]
            ∧ sampleInputNoWeights.getBiasesSizes ⟨1⟩ = Except.ok b.getDimensions
            ∧ b.fill = some (0, 1)) :=
  ⟨rfl, rfl, C12_allocate_synthesizes sampleInputNoWeights ⟨1⟩ FPType.double 50 sampleData
    rfl (by decide)⟩

/-- C13: `Input::allocate` changes absent optional slots only. Whenever it
returns, data, populationMean and populationVariance are the references they
were, and a weights or biases tensor that was present is the same object,
with its shape and contents, in the same slot. It returns for every input with
a data tensor and a valid dimension, and for every input with both weights and
biases present it returns the input unchanged without creating an object. -/
theorem C13_allocate_frame (inp : Input) (parameter : Parameter) (T : FPType)
    (next : Nat) :
    (∀ inp2 n, inp.allocate parameter T next = Except.ok (inp2, n) →
        inp2.get InputId.data = inp.get InputId.data
          ∧ inp2.get InputId.populationMean = inp.get InputId.populationMean
          ∧ inp2.get InputId.populationVariance = inp.get InputId.populationVariance
          ∧ (∀ w, inp.get InputId.weights = some w → inp2.get InputId.weights = some w)
          ∧ (∀ b, inp.get InputId.biases = some b → inp2.get InputId.biases = some b))
      ∧ (∀ data, inp.get InputId.data = some data →
          parameter.dimension < data.getDimensions.length →
          ∃ inp2 n, inp.allocate parameter T next = Except.ok (inp2, n))
      ∧ (∀ w b, inp.get InputId.weights = some w → inp.get InputId.biases = some b →
          inp.allocate parameter T next = Except.ok (inp, next)) := by
  refine ⟨fun inp2 n h => inputAllocate_frame inp parameter T next inp2 n h,
    fun data hdata hdim => ⟨_, _, inputAllocate_eq inp parameter T next data hdata hdim⟩,
    ?_⟩
  intro w b hw hb
  obtain ⟨d, w0, b0, pm, pv⟩ := inp
  simp only [Input.get] at hw hb
  subst hw hb
  rfl

/-- Witness of C13: on the input with data of shape [4,3] and all four auxiliary
tensors present the call returns the input itself; on the input without
weights and biases it returns and the other three slots are kept. -/
theorem C13_allocate_frame_witness :
    sampleInput.allocate ⟨1⟩ FPType.double 50 = Except.ok (sampleInput, 50)
      ∧ ∃ inp2 n, sampleInputNoWeights.allocate ⟨1⟩ FPType.double 50 = Except.ok (inp2, n)
          ∧ inp2.get InputId.data = sampleInputNoWeights.get InputId.data
          ∧ inp2.get InputId.populationMean = sampleInputNoWeights.get InputId.populationMean
          ∧ inp2.get InputId.populationVariance
              = sampleInputNoWeights.get InputId.populationVariance :=
  ⟨(C13_allocate_frame sampleInput ⟨1⟩ FPType.double 50).2.2 _ _ rfl rfl,
    _, _, rfl,
    ((C13_allocate_frame sampleInputNoWeights ⟨1⟩ FPType.double 50).1 _ _ rfl).1,
    ((C13_allocate_frame sampleInputNoWeights ⟨1⟩ FPType.double 50).1 _ _ rfl).2.1,
    ((C13_allocate_frame sampleInputNoWeights ⟨1⟩ FPType.double 50).1 _ _ rfl).2.2.1⟩

end BatchNorm

namespace MklRng

/-- The loop of `uniform` writes `n` values. -/
theorem uniformLoop_length (E : Engine) (a b : Int) (n : Nat) (s : E.State) :
    (uniformLoop E a b n s).1.length = n := by
  induction n generalizing s with
  | zero => rfl
  | succ n ih => simp [uniformLoop, ih]

/-- Every call of a sequence writes as many values as it asks for. -/
theorem runCalls_lengths {E : Engine} (inst : MklIntRng E) (calls : List UniformCall) :
    (runCalls inst calls).1.map List.length = calls.map (fun c => c.n) := by
  induction calls generalizing inst with
  | nil => rfl
  | cons c cs ih => simp [runCalls, MklIntRng.uniform, uniformLoop_length, ih]

/-- In an interleaved program every instance writes what it would write if its
own calls were made alone: a call on one instance does not touch the other. -/
theorem runInterleaved_eq {E : Engine} (i1 i2 : MklIntRng E)
    (sched : List (Bool × UniformCall)) :
    (runInterleaved i1 i2 sched).1 = (runCalls i1 (callsOf true sched)).1
      ∧ (runInterleaved i1 i2 sched).2.1 = (runCalls i2 (callsOf false sched)).1 := by
  induction sched generalizing i1 i2 with
  | nil => exact ⟨rfl, rfl⟩
  | cons e es ih =>
    obtain ⟨which, c⟩ := e
    cases which with
    | true =>
      obtain ⟨h1, h2⟩ := ih (i1.uniform c.n c.a c.b).2 i2
      constructor
      · simp only [runInterleaved, callsOf, List.filter_cons, beq_self_eq_true, if_true,
          List.map_cons, runCalls]
        rw [h1]
        rfl
      · simp only [runInterleaved]
        rw [h2]
        rfl
    | false =>
      obtain ⟨h1, h2⟩ := ih i1 (i2.uniform c.n c.a c.b).2
      constructor
      · simp only [runInterleaved]
        rw [h1]
        rfl
      · simp only [runInterleaved, callsOf, List.filter_cons, beq_self_eq_true, if_true,
          List.map_cons, runCalls]
        rw [h2]
        rfl

/-- C15: two instances of `MklIntRng<int, cpu>` constructed with the same seed
that receive the same sequence of `uniform(n, a, b, r)` calls with a <= b,
interleaved in any order, write identical output sequences: each writes what a
single instance of that seed writes for the sequence, and the k-th output has
the length asked for by the k-th call. -/
theorem C15_uniform_deterministic (E : Engine) (seed : Int)
    (sched : List (Bool × UniformCall)) (calls : List UniformCall)
    (hfirst : callsOf true sched = calls) (hsecond : callsOf false sched = calls)
    (hbounds : ∀ c ∈ calls, c.a ≤ c.b) :
    (runInterleaved (MklIntRng.new E seed) (MklIntRng.new E seed) sched).1
        = (runInterleaved (MklIntRng.new E seed) (MklIntRng.new E seed) sched).2.1
      ∧ (runInterleaved (MklIntRng.new E seed) (MklIntRng.new E seed) sched).1
        = (runCalls (MklIntRng.new E seed) calls).1
      ∧ (runCalls (MklIntRng.new E seed) calls).1.map List.length
        = calls.map (fun c => c.n) := by
  have _ := hbounds
  obtain ⟨h1, h2⟩ := runInterleaved_eq (MklIntRng.new E seed) (MklIntRng.new E seed) sched
  rw [hfirst] at h1
  rw [hsecond] at h2
  exact ⟨h1.trans h2.symm, h1, runCalls_lengths _ calls⟩

/-- Witness of C15: seed 42 and the calls uniform(2, 0, 9, r), uniform(1, 5, 5, r)
on both instances, interleaved. -/
theorem C15_uniform_deterministic_witness :
    (runInterleaved (MklIntRng.new sampleEngine 42) (MklIntRng.new sampleEngine 42)
        [(true, ⟨2, 0, 9⟩), (false, ⟨2, 0, 9⟩), (false, ⟨1, 5, 5⟩), (true, ⟨1, 5, 5⟩)]).1
      = (runInterleaved (MklIntRng.new sampleEngine 42) (MklIntRng.new sampleEngine 42)
        [(true, ⟨2, 0, 9⟩), (false, ⟨2, 0, 9⟩), (false, ⟨1, 5, 5⟩), (true, ⟨1, 5, 5⟩)]).2.1
    ∧ (runInterleaved (MklIntRng.new sampleEngine 42) (MklIntRng.new sampleEngine 42)
        [(true, ⟨2, 0, 9⟩), (false, ⟨2, 0, 9⟩), (false, ⟨1, 5, 5⟩), (true, ⟨1, 5, 5⟩)]).1
      = (runCalls (MklIntRng.new sampleEngine 42) [⟨2, 0, 9⟩, ⟨1, 5, 5⟩]).1
    ∧ (runCalls (MklIntRng.new sampleEngine 42) [⟨2, 0, 9⟩, ⟨1, 5, 5⟩]).1.map List.length
      = [⟨2, 0, 9⟩, ⟨1, 5, 5⟩].map (fun c : UniformCall => c.n) :=
  C15_uniform_deterministic sampleEngine 42
    [(true, ⟨2, 0, 9⟩), (false, ⟨2, 0, 9⟩), (false, ⟨1, 5, 5⟩), (true, ⟨1, 5, 5⟩)]
    [⟨2, 0, 9⟩, ⟨1, 5, 5⟩] rfl rfl (by decide)

end MklRng

namespace OpenBlas

/-- Sums of functions that agree below the bound are equal. -/
theorem sumTo_congr {R : Type} [Zero R] [Add R] (f g : Nat → R) (K : Nat)
    (h : ∀ k, k < K → f k = g k) : sumTo f K = sumTo g K := by
  induction K with
  | zero => rfl
  | succ K ih =>
    simp only [sumTo]
    rw [ih (fun k hk => h k (Nat.lt_succ_of_lt hk)), h K (Nat.lt_succ_self K)]

/-- Row and column of the element at `i * n + j` with `j < n`. -/
theorem index_split (i n j : Nat) (h : j < n) :
    (i * n + j) / n = i ∧ (i * n + j) % n = j := by
  have hn : 0 < n := Nat.lt_of_le_of_lt (Nat.zero_le j) h
  constructor
  · rw [Nat.add_comm, Nat.add_mul_div_right _ _ hn, Nat.div_eq_of_lt h, Nat.zero_add]
  · rw [Nat.add_comm, Nat.add_mul_mod_self_right, Nat.mod_eq_of_lt h]

/-- The transposed square buffer read at `i * n + k`. -/
theorem transposeSq_at {R : Type} (n : Nat) (X : Nat → R) (i k : Nat) (h : k < n) :
    transposeSq n X (i * n + k) = X (k * n + i) := by
  unfold transposeSq
  rw [(index_split i n k h).1, (index_split i n k h).2]

/-- C16, the code at a failing input: for transa = 'N', transb = 'T', p = 2,
ny = 3, n = 4 the double-precision `xgemm` passes the flags, the dimensions p
and ny and the operands in swapped order, the single-precision `xgemm` in the
order of its signature; the two backend calls differ in more than the element
type. For 2 by 2 operands the double-precision result is the column-major
product and the single-precision result is not. -/
theorem C16_xgemm_calls_differ :
    (xgemmCallDouble CpuType.sse2 'N' 'T' 2 3 4 (1 : Int) (bufferOf [1, 2, 3, 4]) 2
        (bufferOf [0, 1, 0, 0]) 3 0 (bufferOf []) 2).M = 3
    ∧ (xgemmCallFloat CpuType.sse2 'N' 'T' 2 3 4 (1 : Int) (bufferOf [1, 2, 3, 4]) 2
        (bufferOf [0, 1, 0, 0]) 3 0 (bufferOf []) 2).M = 2
    ∧ (xgemmCallDouble CpuType.sse2 'N' 'T' 2 3 4 (1 : Int) (bufferOf [1, 2, 3, 4]) 2
        (bufferOf [0, 1, 0, 0]) 3 0 (bufferOf []) 2).transA = CBLAS_TRANSPOSE.CblasTrans
    ∧ (xgemmCallFloat CpuType.sse2 'N' 'T' 2 3 4 (1 : Int) (bufferOf [1, 2, 3, 4]) 2
        (bufferOf [0, 1, 0, 0]) 3 0 (bufferOf []) 2).transA = CBLAS_TRANSPOSE.CblasNoTrans
    ∧ (xgemmCallDouble CpuType.sse2 'N' 'T' 2 3 4 (1 : Int) (bufferOf [1, 2, 3, 4]) 2
        (bufferOf [0, 1, 0, 0]) 3 0 (bufferOf []) 2).lda = 3
    ∧ (xgemmCallFloat CpuType.sse2 'N' 'T' 2 3 4 (1 : Int) (bufferOf [1, 2, 3, 4]) 2
        (bufferOf [0, 1, 0, 0]) 3 0 (bufferOf []) 2).lda = 2
    ∧ ¬ GemmCall.sameConvention
        (xgemmCallDouble CpuType.sse2 'N' 'T' 2 3 4 (1 : Int) (bufferOf [1, 2, 3, 4]) 2
          (bufferOf [0, 1, 0, 0]) 3 0 (bufferOf []) 2)
        (xgemmCallFloat CpuType.sse2 'N' 'T' 2 3 4 (1 : Int) (bufferOf [1, 2, 3, 4]) 2
          (bufferOf [0, 1, 0, 0]) 3 0 (bufferOf []) 2)
    ∧ xgemmDouble CpuType.sse2 'N' 'N' 2 2 2 (1 : Int) (bufferOf [1, 2, 3, 4]) 2
        (bufferOf [0, 1, 0, 0]) 2 0 (bufferOf []) 2 0 = 3
    ∧ colMajorGemm 'N' 'N' 2 (1 : Int) (bufferOf [1, 2, 3, 4]) 2
        (bufferOf [0, 1, 0, 0]) 2 0 (bufferOf []) 2 0 0 = 3
    ∧ xgemmFloat CpuType.sse2 'N' 'N' 2 2 2 (1 : Int) (bufferOf [1, 2, 3, 4]) 2
        (bufferOf [0, 1, 0, 0]) 2 0 (bufferOf []) 2 0 = 0 := by
  refine ⟨rfl, rfl, by decide, by decide, rfl, rfl, ?_, by decide, by decide, by decide⟩
  intro h
  exact absurd h.2.2.2.1 (by decide)

/-- Counterexample to C17: n = 2, alpha = 1, beta = 0, transb = 'N', the buffers
a = [1,2,3,4] and y = [0,1,0,0]. For either precision the matrix written with
transa = 'T' is not the transpose of the one written with transa = 'N': the
two differ in a diagonal element, which a transposition keeps. -/
theorem C17_transposed_call_not_transpose :
    xgemmDouble CpuType.sse2 'T' 'N' 2 2 2 (1 : Int) (bufferOf [1, 2, 3, 4]) 2
        (bufferOf [0, 1, 0, 0]) 2 0 (bufferOf []) 2 (0 * 2 + 0)
      ≠ xgemmDouble CpuType.sse2 'N' 'N' 2 2 2 (1 : Int) (bufferOf [1, 2, 3, 4]) 2
        (bufferOf [0, 1, 0, 0]) 2 0 (bufferOf []) 2 (0 * 2 + 0)
    ∧ xgemmFloat CpuType.sse2 'T' 'N' 2 2 2 (1 : Int) (bufferOf [1, 2, 3, 4]) 2
        (bufferOf [0, 1, 0, 0]) 2 0 (bufferOf []) 2 (1 * 2 + 1)
      ≠ xgemmFloat CpuType.sse2 'N' 'N' 2 2 2 (1 : Int) (bufferOf [1, 2, 3, 4]) 2
        (bufferOf [0, 1, 0, 0]) 2 0 (bufferOf []) 2 (1 * 2 + 1) := by
  decide

/-- C17 as amended: for square operands of order n with alpha = 1, beta = 0 and
transb = 'N', the buffer written by `xgemm` with transa = 'T' is, for either
precision, the buffer it writes with transa = 'N' when the operand a is
replaced by its transpose. -/
theorem C17_transposed_call_is_call_on_transpose {R : Type} [CommRing R] (cpu : CpuType)
    (n : Nat) (a y aty : Nat → R) (idx : Nat) :
    xgemmDouble cpu 'T' 'N' n n n 1 a n y n 0 aty n idx
        = xgemmDouble cpu 'N' 'N' n n n 1 (transposeSq n a) n y n 0 aty n idx
      ∧ xgemmFloat cpu 'T' 'N' n n n 1 a n y n 0 aty n idx
        = xgemmFloat cpu 'N' 'N' n n n 1 (transposeSq n a) n y n 0 aty n idx := by
  have hT : transFlag 'T' = CBLAS_TRANSPOSE.CblasTrans := by decide
  have hN : transFlag 'N' = CBLAS_TRANSPOSE.CblasNoTrans := by decide
  constructor
  · simp only [xgemmDouble, xgemmCallDouble, cblas_gemm, hT, hN, opAt, elemAt]
    by_cases hc : idx / n < n ∧ idx % n < n
    · rw [if_pos hc, if_pos hc]
      congr 2
      apply sumTo_congr
      intro k _
      rw [transposeSq_at n a k (idx % n) hc.2]
    · rw [if_neg hc, if_neg hc]
  · simp only [xgemmFloat, xgemmCallFloat, cblas_gemm, hT, hN, opAt, elemAt]
    by_cases hc : idx / n < n ∧ idx % n < n
    · rw [if_pos hc, if_pos hc]
      congr 2
      apply sumTo_congr
      intro k hk
      rw [transposeSq_at n a (idx / n) k hk]
    · rw [if_neg hc, if_neg hc]

/-- C18: for conforming arguments (p at most ldaty), after
`OpenBlas<double, cpu>::xgemm` the buffer aty, read column-major with leading
dimension ldaty, holds in row i and column j, for i < p and j < ny, the
element of alpha * op(a) * op(y) + beta * aty, where a and y are read
column-major with leading dimensions lda and ldy and n is the inner
dimension; every element of the buffer outside this p by ny matrix is kept. -/
theorem C18_xgemm_double_column_major {R : Type} [CommRing R] (cpu : CpuType)
    (transa transb : Char) (p ny n : Nat) (alpha : R) (a : Nat → R) (lda : Nat)
    (y : Nat → R) (ldy : Nat) (beta : R) (aty : Nat → R) (ldaty : Nat)
    (hld : p ≤ ldaty) :
    (∀ i j, i < p → j < ny →
        xgemmDouble cpu transa transb p ny n alpha a lda y ldy beta aty ldaty (i + j * ldaty)
          = colMajorGemm transa transb n alpha a lda y ldy beta aty ldaty i j)
      ∧ (∀ idx, ¬ (idx % ldaty < p ∧ idx / ldaty < ny) →
        xgemmDouble cpu transa transb p ny n alpha a lda y ldy beta aty ldaty idx
          = aty idx) := by
  constructor
  · intro i j hi hj
    have hil : i < ldaty := Nat.lt_of_lt_of_le hi hld
    have hsplit := index_split j ldaty i hil
    have hidx : i + j * ldaty = j * ldaty + i := Nat.add_comm _ _
    simp only [xgemmDouble, xgemmCallDouble, cblas_gemm, colMajorGemm, hidx, hsplit.1,
      hsplit.2]
    rw [if_pos ⟨hj, hi⟩]
    congr 2
    apply sumTo_congr
    intro k _
    by_cases ha : transa = 'N' ∨ transa = 'n' <;> by_cases hb : transb = 'N' ∨ transb = 'n' <;>
      simp only [transFlag, colMajorOp, opAt, elemAt, ha, hb, if_true, if_false] <;>
      rw [mul_comm] <;> congr 2 <;> exact Nat.add_comm _ _
  · intro idx hidx
    simp only [xgemmDouble, xgemmCallDouble, cblas_gemm]
    rw [if_neg (fun h => hidx ⟨h.2, h.1⟩)]

/-- Witness of C18: 2 by 2 operands a = [1,2,3,4] and y = [0,1,0,0] in
column-major order, no transposition, alpha = 1, beta = 0. -/
theorem C18_xgemm_double_column_major_witness :
    (2 : Nat) ≤ 2
    ∧ (∀ i j, i < 2 → j < 2 →
        xgemmDouble CpuType.sse2 'N' 'N' 2 2 2 (1 : Int) (bufferOf [1, 2, 3, 4]) 2
            (bufferOf [0, 1, 0, 0]) 2 0 (bufferOf []) 2 (i + j * 2)
          = colMajorGemm 'N' 'N' 2 (1 : Int) (bufferOf [1, 2, 3, 4]) 2
            (bufferOf [0, 1, 0, 0]) 2 0 (bufferOf []) 2 i j)
    ∧ (∀ idx, ¬ (idx % 2 < 2 ∧ idx / 2 < 2) →
        xgemmDouble CpuType.sse2 'N' 'N' 2 2 2 (1 : Int) (bufferOf [1, 2, 3, 4]) 2
            (bufferOf [0, 1, 0, 0]) 2 0 (bufferOf []) 2 idx
          = (bufferOf []) idx) :=
  ⟨Nat.le_refl 2, C18_xgemm_double_column_major CpuType.sse2 'N' 'N' 2 2 2 (1 : Int)
    (bufferOf [1, 2, 3, 4]) 2 (bufferOf [0, 1, 0, 0]) 2 0 (bufferOf []) 2 (Nat.le_refl 2)⟩

end OpenBlas

namespace low_order_moments

/-- The copy constructor of the moments algorithm: the object it builds. -/
theorem momentsCopy_eq (other : Batch) (next : Nat) :
    Batch.copy other next = (⟨⟨other.input.data⟩, some next, some (next + 1)⟩, next + 2) :=
  rfl

end low_order_moments

namespace abs_forward

/-- The copy constructor of the forward abs layer: the object it builds. -/
theorem absCopy_eq (other : Batch) (next : Nat) :
    Batch.copy other next
      = (⟨⟨other.input.data, other.input.weights, other.input.biases⟩,
          some (next + 1), some next⟩, next + 2) :=
  rfl

/-- C19: copy construction copies input objects only. A low order moments
`Batch` constructed from another holds in its data slot the reference of the
data slot of the source and owns a `Result` created by the constructor, which
is not the one of the source; a forward abs `Batch` constructed from another
holds the data, weights and biases references of the source and a `Result`
created by the constructor. The objects of the source live below the next free
address. -/
theorem C19_copy_constructors_share_input (m : low_order_moments.Batch) (l : Batch)
    (next : Nat)
    (hm : ∀ addr, m._result = some addr → addr < next)
    (hl : ∀ addr, l._result = some addr → addr < next) :
    ((low_order_moments.Batch.copy m next).1.input.data = m.input.data
        ∧ (low_order_moments.Batch.copy m next).1._result = some next
        ∧ (low_order_moments.Batch.copy m next).1._result ≠ m._result)
      ∧ ((Batch.copy l next).1.input.data = l.input.data
        ∧ (Batch.copy l next).1.input.weights = l.input.weights
        ∧ (Batch.copy l next).1.input.biases = l.input.biases
        ∧ (Batch.copy l next).1._result = some (next + 1)
        ∧ (Batch.copy l next).1._result ≠ l._result) := by
  rw [low_order_moments.momentsCopy_eq, absCopy_eq]
  refine ⟨⟨rfl, rfl, ?_⟩, rfl, rfl, rfl, rfl, ?_⟩
  · intro h
    exact Nat.lt_irrefl _ (hm next h.symm)
  · intro h
    have := hl (next + 1) h.symm
    omega

/-- Witness of C19: the two sample objects, whose results are at addresses 20
and 21, copied with 30 as the next free address. -/
theorem C19_copy_constructors_share_input_witness :
    ((low_order_moments.Batch.copy low_order_moments.sampleBatch 30).1.input.data
          = low_order_moments.sampleBatch.input.data
        ∧ (low_order_moments.Batch.copy low_order_moments.sampleBatch 30).1._result = some 30
        ∧ (low_order_moments.Batch.copy low_order_moments.sampleBatch 30).1._result
          ≠ low_order_moments.sampleBatch._result)
      ∧ ((Batch.copy sampleBatch 30).1.input.data = sampleBatch.input.data
        ∧ (Batch.copy sampleBatch 30).1.input.weights = sampleBatch.input.weights
        ∧ (Batch.copy sampleBatch 30).1.input.biases = sampleBatch.input.biases
        ∧ (Batch.copy sampleBatch 30).1._result = some (30 + 1)
        ∧ (Batch.copy sampleBatch 30).1._result ≠ sampleBatch._result) :=
  C19_copy_constructors_share_input low_order_moments.sampleBatch sampleBatch 30
    (fun addr h => by cases h; decide) (fun addr h => by cases h; decide)

end abs_forward

namespace services

/-- A product below the size of the copy does not wrap. -/
theorem wrap_block (k copySize : Nat) (hk : k * 200000000 ≤ copySize)
    (hc : copySize < 18446744073709551616) : wrap (k * 200000000) = k * 200000000 := by
  unfold wrap
  omega

/-- After `k` iterations the loop has copied the first `k` blocks. -/
theorem copyBlocks_eq {α : Type} (dest src : Nat → α) (k copySize : Nat)
    (hk : k * 200000000 ≤ copySize) (hc : copySize < 18446744073709551616) :
    copyBlocks src 200000000 k dest = singleCopy dest src (k * 200000000) := by
  induction k with
  | zero =>
    funext i
    simp [copyBlocks, singleCopy]
  | succ k ih =>
    have hk2 : k * 200000000 ≤ copySize := by omega
    funext i
    simp only [copyBlocks, ih hk2, wrap_block k copySize hk2 hc, memcpyAt, singleCopy]
    by_cases h1 : i < k * 200000000
    · have h2 : ¬ (k * 200000000 ≤ i ∧ i < k * 200000000 + 200000000) := by omega
      have h3 : i < (k + 1) * 200000000 := by omega
      rw [if_neg h2, if_pos h1, if_pos h3]
    · by_cases h2 : i < k * 200000000 + 200000000
      · have h3 : i < (k + 1) * 200000000 := by omega
        rw [if_pos ⟨by omega, h2⟩, if_pos h3]
      · have h3 : ¬ i < (k + 1) * 200000000 := by omega
        rw [if_neg (fun h => h2 h.2), if_neg h1, if_neg h3]

/-- Number of the first `k` blocks that hold the index `i`. -/
theorem coverCount_blocks (k copySize i : Nat) (hk : k * 200000000 ≤ copySize)
    (hc : copySize < 18446744073709551616) :
    coverCount ((List.range k).map (fun j => (wrap (j * 200000000), 200000000))) i
      = if i < k * 200000000 then 1 else 0 := by
  induction k with
  | zero => simp [coverCount]
  | succ k ih =>
    have hk2 : k * 200000000 ≤ copySize := by omega
    have ih2 := ih hk2
    unfold coverCount at ih2 ⊢
    rw [List.range_succ, List.map_append, List.filter_append, List.length_append, ih2]
    simp only [List.map_cons, List.map_nil, wrap_block k copySize hk2 hc]
    by_cases h1 : i < k * 200000000
    · have h2 : ¬ (k * 200000000 ≤ i ∧ i < k * 200000000 + 200000000) := by omega
      have h3 : i < (k + 1) * 200000000 := by omega
      simp [List.filter_cons, h1, h2, h3]
    · by_cases h2 : i < k * 200000000 + 200000000
      · have h3 : i < (k + 1) * 200000000 := by omega
        have h4 : k * 200000000 ≤ i := by omega
        simp [List.filter_cons, h1, h2, h3, h4]
      · have h3 : ¬ i < (k + 1) * 200000000 := by omega
        simp [List.filter_cons, h1, h2, h3]

/-- C20: for all buffers that do not overlap and all sizes destSize and srcSize
of type `size_t`, `daal_memcpy_s` copies exactly m = min(destSize, srcSize)
bytes: afterwards dest[i] = src[i] for i < m and dest[i] is unchanged for
i >= m, so the result is that of a single copy of m bytes; every index below m
lies in exactly one of the blocks that are copied and no index from m on lies
in any, so the blocks of 200000000 bytes and the last partial block are
disjoint and cover [0, m) exactly. -/
theorem C20_memcpy_copies_min {α : Type} (dest src : Nat → α) (destSize srcSize : Nat)
    (hd : destSize < 18446744073709551616) (hs : srcSize < 18446744073709551616) :
    daal_memcpy_s dest destSize src srcSize = singleCopy dest src (min destSize srcSize)
      ∧ (∀ i, i < min destSize srcSize →
          daal_memcpy_s dest destSize src srcSize i = src i)
      ∧ (∀ i, min destSize srcSize ≤ i →
          daal_memcpy_s dest destSize src srcSize i = dest i)
      ∧ (∀ i, i < min destSize srcSize → coverCount (memcpyCalls destSize srcSize) i = 1)
      ∧ (∀ i, min destSize srcSize ≤ i → coverCount (memcpyCalls destSize srcSize) i = 0) := by
  have _ := hs
  have hmin : (if destSize < srcSize then destSize else srcSize) = min destSize srcSize := by
    by_cases h : destSize < srcSize
    · rw [if_pos h, Nat.min_eq_left (Nat.le_of_lt h)]
    · rw [if_neg h, Nat.min_eq_right (Nat.le_of_not_lt h)]
  generalize hm : min destSize srcSize = m at hmin ⊢
  have hmlt : m < 18446744073709551616 := by
    rw [← hm]; exact Nat.lt_of_le_of_lt (Nat.min_le_left _ _) hd
  have hdiv : m / 200000000 * 200000000 ≤ m := Nat.div_mul_le_self m 200000000
  have hw := wrap_block (m / 200000000) m hdiv hmlt
  have hlast : wrap (m + 18446744073709551616 - m / 200000000 * 200000000)
      = m - m / 200000000 * 200000000 := by
    unfold wrap
    omega
  have hmain : daal_memcpy_s dest destSize src srcSize = singleCopy dest src m := by
    funext i
    by_cases he : m / 200000000 * 200000000 = m
    · have hwm : wrap m = m := by
        unfold wrap
        omega
      simp only [daal_memcpy_s, hmin, copyBlocks_eq dest src (m / 200000000) m hdiv hmlt, he,
        hwm, ne_eq, not_true_eq_false, if_false]
    · have hne : ¬ (m - m / 200000000 * 200000000 = 0) := by omega
      simp only [daal_memcpy_s, hmin, hw, hlast,
        copyBlocks_eq dest src (m / 200000000) m hdiv hmlt, ne_eq, he, not_false_eq_true,
        if_true, hne, memcpyAt, singleCopy]
      by_cases h1 : i < m / 200000000 * 200000000
      · have h2 : i < m := by omega
        have h3 : ¬ (m / 200000000 * 200000000 ≤ i
            ∧ i < m / 200000000 * 200000000 + (m - m / 200000000 * 200000000)) := by omega
        rw [if_neg h3, if_pos h1, if_pos h2]
      · by_cases h2 : i < m
        · have h3 : m / 200000000 * 200000000 ≤ i
              ∧ i < m / 200000000 * 200000000 + (m - m / 200000000 * 200000000) := by omega
          rw [if_pos h3, if_pos h2]
        · have h3 : ¬ (m / 200000000 * 200000000 ≤ i
              ∧ i < m / 200000000 * 200000000 + (m - m / 200000000 * 200000000)) := by omega
          rw [if_neg h3, if_neg h1, if_neg h2]
  have hcover : ∀ i, coverCount (memcpyCalls destSize srcSize) i = if i < m then 1 else 0 := by
    intro i
    have hb := coverCount_blocks (m / 200000000) m i hdiv hmlt
    unfold coverCount at hb ⊢
    simp only [memcpyCalls, hmin, hw, hlast, List.filter_append, List.length_append, hb]
    by_cases he : m / 200000000 * 200000000 = m
    · simp [he]
    · have hne : ¬ (m - m / 200000000 * 200000000 = 0) := by omega
      simp only [ne_eq, he, not_false_eq_true, if_true, hne]
      by_cases h1 : i < m / 200000000 * 200000000
      · have h2 : i < m := by omega
        have h3 : ¬ (m / 200000000 * 200000000 ≤ i
            ∧ i < m / 200000000 * 200000000 + (m - m / 200000000 * 200000000)) := by omega
        simp [List.filter_cons, h1, h2, h3]
      · by_cases h2 : i < m
        · have h3 : m / 200000000 * 200000000 ≤ i
              ∧ i < m / 200000000 * 200000000 + (m - m / 200000000 * 200000000) := by omega
          simp [List.filter_cons, h1, h2, h3]
        · have h3 : ¬ (m / 200000000 * 200000000 ≤ i
              ∧ i < m / 200000000 * 200000000 + (m - m / 200000000 * 200000000)) := by omega
          simp [List.filter_cons, h1, h2, h3]
  refine ⟨hmain, ?_, ?_, ?_, ?_⟩
  · intro i hi
    rw [hmain]
    simp [singleCopy, hi]
  · intro i hi
    rw [hmain]
    simp [singleCopy, Nat.not_lt.mpr hi]
  · intro i hi
    rw [hcover i, if_pos hi]
  · intro i hi
    rw [hcover i, if_neg (Nat.not_lt.mpr hi)]

/-- Witness of C20: a destination of 400000005 bytes and a source of 500000000
bytes, which makes two full blocks and a last block of 5 bytes. -/
theorem C20_memcpy_copies_min_witness :
    (400000005 : Nat) < 18446744073709551616
    ∧ memcpyCalls 400000005 500000000
        = [(0, 200000000), (200000000, 200000000), (400000000, 5)]
    ∧ daal_memcpy_s (fun _ => (0 : Nat)) 400000005 (fun i => i % 256) 500000000
        = singleCopy (fun _ => (0 : Nat)) (fun i => i % 256) (min 400000005 500000000)
    ∧ (∀ i, i < min 400000005 500000000 →
        daal_memcpy_s (fun _ => (0 : Nat)) 400000005 (fun i => i % 256) 500000000 i = i % 256)
    ∧ (∀ i, min 400000005 500000000 ≤ i →
        daal_memcpy_s (fun _ => (0 : Nat)) 400000005 (fun i => i % 256) 500000000 i = 0)
    ∧ (∀ i, i < min 400000005 500000000 →
        coverCount (memcpyCalls 400000005 500000000) i = 1)
    ∧ (∀ i, min 400000005 500000000 ≤ i →
        coverCount (memcpyCalls 400000005 500000000) i = 0) :=
  ⟨by norm_num, by simp [memcpyCalls, wrap, List.range_succ],
    C20_memcpy_copies_min (fun _ => (0 : Nat)) (fun i => i % 256) 400000005 500000000
      (by norm_num) (by norm_num)⟩

end services


namespace services

/-- The loop of `daal_memcpy_s` is the sequence of the `memcpy` calls of its
blocks, made in order. -/
theorem copyBlocks_eq_foldl {α : Type} (dest src : Nat → α) (BLOCKSIZE k : Nat) :
    copyBlocks src BLOCKSIZE k dest
      = ((List.range k).map (fun i => (wrap (i * BLOCKSIZE), BLOCKSIZE))).foldl
          (fun d c => memcpyAt d src c.1 c.2) dest := by
  induction k with
  | zero => rfl
  | succ k ih =>
    rw [List.range_succ, List.map_append, List.foldl_append, ← ih]
    rfl

/-- The buffer that `daal_memcpy_s` leaves is the one left by the `memcpy` calls
of the list, made in order. -/
theorem daal_memcpy_s_eq_foldl {α : Type} (dest src : Nat → α) (destSize srcSize : Nat) :
    daal_memcpy_s dest destSize src srcSize
      = (memcpyCalls destSize srcSize).foldl (fun d c => memcpyAt d src c.1 c.2) dest := by
  simp only [daal_memcpy_s, memcpyCalls, List.foldl_append, ← copyBlocks_eq_foldl]
  split <;> split_ifs <;> rfl

/-- Every `memcpy` call of `daal_memcpy_s` ends at or before the size of the copy. -/
theorem memcpyCalls_bound (destSize srcSize : Nat)
    (hd : destSize < 18446744073709551616) (off len : Nat)
    (hc : (off, len) ∈ memcpyCalls destSize srcSize) :
    off + len ≤ min destSize srcSize := by
  have hmin : (if destSize < srcSize then destSize else srcSize) = min destSize srcSize := by
    by_cases h : destSize < srcSize
    · rw [if_pos h, Nat.min_eq_left (Nat.le_of_lt h)]
    · rw [if_neg h, Nat.min_eq_right (Nat.le_of_not_lt h)]
  generalize hm : min destSize srcSize = m at hmin ⊢
  have hmlt : m < 18446744073709551616 := by
    rw [← hm]; exact Nat.lt_of_le_of_lt (Nat.min_le_left _ _) hd
  have hdiv : m / 200000000 * 200000000 ≤ m := Nat.div_mul_le_self m 200000000
  have hw := wrap_block (m / 200000000) m hdiv hmlt
  have hlast : wrap (m + 18446744073709551616 - m / 200000000 * 200000000)
      = m - m / 200000000 * 200000000 := by
    unfold wrap
    omega
  simp only [memcpyCalls, hmin, hw, hlast, List.mem_append, List.mem_map, List.mem_range,
    Prod.mk.injEq] at hc
  rcases hc with ⟨i, hi, hoff, hlen⟩ | hc
  · have h1 : i * 200000000 + 200000000 ≤ m / 200000000 * 200000000 := by
      have : (i + 1) * 200000000 ≤ m / 200000000 * 200000000 :=
        Nat.mul_le_mul_right 200000000 hi
      omega
    have hwi := wrap_block i m (by omega) hmlt
    rw [hwi] at hoff
    omega
  · by_cases he : m / 200000000 * 200000000 = m
    · have h0 : m - m / 200000000 * 200000000 = 0 := by omega
      simp [h0] at hc
    · have hne : ¬ (m - m / 200000000 * 200000000 = 0) := by omega
      simp only [ne_eq, he, hne, not_false_eq_true, if_true, List.mem_singleton,
        Prod.mk.injEq] at hc
      obtain ⟨h1, h2⟩ := hc
      omega

/-- C21: `daal_memcpy_s` never accesses a byte outside the buffers. The buffer it
leaves is the one left by its `memcpy` calls, and for all sizes destSize and
srcSize of type `size_t` every call stays inside both buffers: each index it
writes in dest is below destSize and each index it reads from src is below
srcSize. This holds for every size, a multiple of the block size or smaller
than one block included. -/
theorem C21_memcpy_in_bounds {α : Type} (dest src : Nat → α) (destSize srcSize : Nat)
    (hd : destSize < 18446744073709551616) (hs : srcSize < 18446744073709551616) :
    daal_memcpy_s dest destSize src srcSize
        = (memcpyCalls destSize srcSize).foldl (fun d c => memcpyAt d src c.1 c.2) dest
      ∧ (∀ c ∈ memcpyCalls destSize srcSize, c.1 + c.2 ≤ destSize ∧ c.1 + c.2 ≤ srcSize)
      ∧ (∀ c ∈ memcpyCalls destSize srcSize, ∀ i, c.1 ≤ i → i < c.1 + c.2 →
          i < destSize ∧ i < srcSize) := by
  have _ := hs
  have hb : ∀ c ∈ memcpyCalls destSize srcSize, c.1 + c.2 ≤ min destSize srcSize :=
    fun c hc => memcpyCalls_bound destSize srcSize hd c.1 c.2 hc
  refine ⟨daal_memcpy_s_eq_foldl dest src destSize srcSize, ?_, ?_⟩
  · intro c hc
    have h := hb c hc
    exact ⟨Nat.le_trans h (Nat.min_le_left _ _), Nat.le_trans h (Nat.min_le_right _ _)⟩
  · intro c hc i _ hi
    have h := Nat.lt_of_lt_of_le hi (hb c hc)
    exact ⟨Nat.lt_of_lt_of_le h (Nat.min_le_left _ _),
      Nat.lt_of_lt_of_le h (Nat.min_le_right _ _)⟩

/-- Witness of C21: a size that is twice the block size, a size below one block
and the size zero give two full blocks, one short block and no call; the
general statement is applied to the first. -/
theorem C21_memcpy_in_bounds_witness :
    memcpyCalls 400000000 500000000 = [(0, 200000000), (200000000, 200000000)]
    ∧ memcpyCalls 5 3 = [(0, 3)]
    ∧ memcpyCalls 0 7 = []
    ∧ daal_memcpy_s (fun _ => (0 : Nat)) 400000000 (fun i => i % 256) 500000000
        = (memcpyCalls 400000000 500000000).foldl
            (fun d c => memcpyAt d (fun i => i % 256) c.1 c.2) (fun _ => (0 : Nat))
    ∧ (∀ c ∈ memcpyCalls 400000000 500000000,
        c.1 + c.2 ≤ 400000000 ∧ c.1 + c.2 ≤ 500000000)
    ∧ (∀ c ∈ memcpyCalls 400000000 500000000, ∀ i, c.1 ≤ i → i < c.1 + c.2 →
        i < 400000000 ∧ i < 500000000) :=
  ⟨by simp [memcpyCalls, wrap, List.range_succ], by simp [memcpyCalls, wrap],
    by simp [memcpyCalls, wrap],
    C21_memcpy_in_bounds (fun _ => (0 : Nat)) (fun i => i % 256) 400000000 500000000
      (by norm_num) (by norm_num)⟩

end services


namespace BatchNorm

/-- C23: for every `algorithmFPType`, double included, `Input::allocate`
synthesizes an absent weights tensor and an absent biases tensor with element
type float, whereas `Result::allocate` gives the value tensor and the four
statistics tensors the element type `algorithmFPType`. Stated for an input
with a data tensor and a valid dimension, on which both calls return. -/
theorem C23_element_types (res : Result) (inp : Input) (parameter : Parameter)
    (algorithmFPType : FPType) (next : Nat) (data : Tensor)
    (hdata : inp.get InputId.data = some data)
    (hdim : parameter.dimension < data.getDimensions.length) :
    (∃ inp2 n, inp.allocate parameter algorithmFPType next = Except.ok (inp2, n)
        ∧ (inp.get InputId.weights = none →
            ∃ w, inp2.get InputId.weights = some w ∧ w.elemType = FPType.float)
        ∧ (inp.get InputId.biases = none →
            ∃ b, inp2.get InputId.biases = some b ∧ b.elemType = FPType.float))
      ∧ ∃ r n v, res.allocate inp parameter algorithmFPType next = Except.ok (r, n)
          ∧ r.value = some v ∧ v.elemType = algorithmFPType
          ∧ ∀ id ∈ [LayerDataId.auxMean, LayerDataId.auxStandardDeviation,
                LayerDataId.auxPopulationMean, LayerDataId.auxPopulationVariance],
              ∃ t, r.get id = Except.ok (some t) ∧ t.elemType = algorithmFPType := by
  constructor
  · refine ⟨_, _, inputAllocate_eq inp parameter algorithmFPType next data hdata hdim, ?_, ?_⟩
    · intro hw
      have hw2 : inp.weights = none := hw
      refine ⟨HomogenTensor.mkFilled next FPType.float [data.dims[parameter.dimension]]
        (1, 2), ?_, rfl⟩
      simp [Input.get, hw2]
    · intro hb
      have hb2 : inp.biases = none := hb
      refine ⟨HomogenTensor.mkFilled (if inp.weights.isNone then next + 1 else next)
        FPType.float [data.dims[parameter.dimension]] (0, 1), ?_, rfl⟩
      simp [Input.get, hb2]
  · refine ⟨_, _, _, resultAllocate_eq res inp parameter algorithmFPType next data hdata hdim,
      rfl, rfl, ?_⟩
    intro id hid
    simp only [List.mem_cons, List.mem_singleton, List.not_mem_nil, or_false] at hid
    rcases hid with h | h | h | h <;> subst h <;> exact ⟨_, rfl, rfl⟩

/-- Witness of C23: `algorithmFPType` double, data of shape [4,3], dimension 1,
weights and biases absent. -/
theorem C23_element_types_witness :
    sampleInputNoWeights.get InputId.weights = none
    ∧ sampleInputNoWeights.get InputId.biases = none
    ∧ (∃ inp2 n, sampleInputNoWeights.allocate ⟨1⟩ FPType.double 50 = Except.ok (inp2, n)
        ∧ (sampleInputNoWeights.get InputId.weights = none →
            ∃ w, inp2.get InputId.weights = some w ∧ w.elemType = FPType.float)
        ∧ (sampleInputNoWeights.get InputId.biases = none →
            ∃ b, inp2.get InputId.biases = some b ∧ b.elemType = FPType.float))
    ∧ ∃ r n v, emptyResult.allocate sampleInputNoWeights ⟨1⟩ FPType.double 50
          = Except.ok (r, n)
        ∧ r.value = some v ∧ v.elemType = FPType.double
        ∧ ∀ id ∈ [LayerDataId.auxMean, LayerDataId.auxStandardDeviation,
              LayerDataId.auxPopulationMean, LayerDataId.auxPopulationVariance],
            ∃ t, r.get id = Except.ok (some t) ∧ t.elemType = FPType.double :=
  ⟨rfl, rfl, C23_element_types emptyResult sampleInputNoWeights ⟨1⟩ FPType.double 50
    sampleData rfl (by decide)⟩

end BatchNorm

namespace OpenBlas

/-- C24: the flag mapping of `xsyrk` is total and, for the triangle, sensitive to
case. For either precision and every pair of characters the upper triangle is
passed exactly when uplo is 'U' and the lower triangle for every other
character, lowercase 'u' included; no-transpose is passed exactly when trans
is 'N' or 'n' and transpose for every other character. -/
theorem C24_xsyrk_flags {R : Type} (cpu : CpuType) (uplo trans : Char) (p n : Nat)
    (alpha : R) (a : Nat → R) (lda : Nat) (beta : R) (ata : Nat → R) (ldata : Nat) :
    ((xsyrkCallDouble cpu uplo trans p n alpha a lda beta ata ldata).uplo
          = CBLAS_UPLO.CblasUpper ↔ uplo = 'U')
      ∧ ((xsyrkCallDouble cpu uplo trans p n alpha a lda beta ata ldata).uplo
          = CBLAS_UPLO.CblasLower ↔ uplo ≠ 'U')
      ∧ ((xsyrkCallDouble cpu uplo trans p n alpha a lda beta ata ldata).trans
          = CBLAS_TRANSPOSE.CblasNoTrans ↔ (trans = 'N' ∨ trans = 'n'))
      ∧ ((xsyrkCallDouble cpu uplo trans p n alpha a lda beta ata ldata).trans
          = CBLAS_TRANSPOSE.CblasTrans ↔ ¬ (trans = 'N' ∨ trans = 'n'))
      ∧ ((xsyrkCallFloat cpu uplo trans p n alpha a lda beta ata ldata).uplo
          = CBLAS_UPLO.CblasUpper ↔ uplo = 'U')
      ∧ ((xsyrkCallFloat cpu uplo trans p n alpha a lda beta ata ldata).uplo
          = CBLAS_UPLO.CblasLower ↔ uplo ≠ 'U')
      ∧ ((xsyrkCallFloat cpu uplo trans p n alpha a lda beta ata ldata).trans
          = CBLAS_TRANSPOSE.CblasNoTrans ↔ (trans = 'N' ∨ trans = 'n'))
      ∧ ((xsyrkCallFloat cpu uplo trans p n alpha a lda beta ata ldata).trans
          = CBLAS_TRANSPOSE.CblasTrans ↔ ¬ (trans = 'N' ∨ trans = 'n'))
      ∧ (xsyrkCallDouble cpu 'u' trans p n alpha a lda beta ata ldata).uplo
          = CBLAS_UPLO.CblasLower
      ∧ (xsyrkCallFloat cpu 'u' trans p n alpha a lda beta ata ldata).uplo
          = CBLAS_UPLO.CblasLower := by
  have hu : (uploFlag uplo = CBLAS_UPLO.CblasUpper ↔ uplo = 'U')
      ∧ (uploFlag uplo = CBLAS_UPLO.CblasLower ↔ uplo ≠ 'U') := by
    unfold uploFlag
    by_cases h : uplo = 'U' <;> simp [h]
  have ht : (transFlag trans = CBLAS_TRANSPOSE.CblasNoTrans ↔ (trans = 'N' ∨ trans = 'n'))
      ∧ (transFlag trans = CBLAS_TRANSPOSE.CblasTrans ↔ ¬ (trans = 'N' ∨ trans = 'n')) := by
    unfold transFlag
    by_cases h : trans = 'N' ∨ trans = 'n' <;> simp [h]
  have hl : uploFlag 'u' = CBLAS_UPLO.CblasLower := by decide
  exact ⟨hu.1, hu.2, ht.1, ht.2, hu.1, hu.2, ht.1, ht.2, hl, hl⟩

/-- C25: the backend binding does not depend on the CPU variant. The call macro
`__DAAL_MKLFN_CALL(blas_, f, args)` names the routine `cblas_f` for every
routine name f, `__DAAL_MKLFN` gives that name whatever the CPU and prefix
tokens are, and for every two values of the `cpu` template parameter the calls
made by `xsyrk` and `xgemm`, routine and arguments, are the same. -/
theorem C25_binding_independent_of_cpu {R : Type} (cpu1 cpu2 : CpuType) ( f : String)
    ( f_cpu f_pref : String) (uplo trans transb : Char) (p n ny : Nat) (alpha : R)
    (a : Nat → R) (lda : Nat) (y : Nat → R) (ldy : Nat) (beta : R) (ata : Nat → R)
    (ldata : Nat) :
    DAAL_MKLFN_CALL "blas_" f = "cblas_" ++ f
      ∧ DAAL_MKLFN f_cpu f_pref f = "cblas_" ++ f
      ∧ DAAL_CONCAT41 "cblas_" f_pref f_cpu f = "cblas_" ++ f
      ∧ (xsyrkCallDouble cpu1 uplo trans p n alpha a lda beta ata ldata).routine
          = "cblas_dsyrk"
      ∧ (xsyrkCallFloat cpu1 uplo trans p n alpha a lda beta ata ldata).routine
          = "cblas_ssyrk"
      ∧ xsyrkCallDouble cpu1 uplo trans p n alpha a lda beta ata ldata
          = xsyrkCallDouble cpu2 uplo trans p n alpha a lda beta ata ldata
      ∧ xsyrkCallFloat cpu1 uplo trans p n alpha a lda beta ata ldata
          = xsyrkCallFloat cpu2 uplo trans p n alpha a lda beta ata ldata
      ∧ xgemmCallDouble cpu1 trans transb p ny n alpha a lda y ldy beta ata ldata
          = xgemmCallDouble cpu2 trans transb p ny n alpha a lda y ldy beta ata ldata
      ∧ xgemmCallFloat cpu1 trans transb p ny n alpha a lda y ldy beta ata ldata
          = xgemmCallFloat cpu2 trans transb p ny n alpha a lda y ldy beta ata ldata :=
  ⟨rfl, rfl, rfl, (by decide : DAAL_MKLFN_CALL "blas_" "dsyrk" = "cblas_dsyrk"),
    (by decide : DAAL_MKLFN_CALL "blas_" "ssyrk" = "cblas_ssyrk"), rfl, rfl, rfl, rfl⟩

end OpenBlas
